import Mathlib

/-!
# Trackman: step executor (`utils/spinner.go`) and sequencer (`utils/workflow.go`)

A shallow embedding of the spinner constructors, `Spinner.Run`, the workflow
loader and `Workflow.Run`.  Calls into the operating system and into Go
libraries (`os.ExpandEnv`, `text/template`, `yaml.Unmarshal`, `cmd.Start`,
`cmd.Wait`, the deadline context) are inputs of the model: their results are
supplied by the caller and every theorem quantifies over them.
-/

namespace Trackman

/-! ## Go values -/

/-- A `time.Duration`: a signed number of nanoseconds. -/
abbrev Duration := Int

/-- What `ExitError.Sys()` hands back: an `interface{}` that holds a
`syscall.WaitStatus` or a value of some other dynamic type. -/
inductive SysValue where
  | waitStatus (status : Nat)
  | other
  deriving DecidableEq, Repr

/-- An `exec.ExitError` (the struct behind a non-nil `*exec.ExitError`). -/
structure ExitError where
  Sys : SysValue
  deriving DecidableEq, Repr

/-- A non-nil value of the interface type `error`.  The dynamic type is either
`*exec.ExitError` (whose pointer may itself be nil: `exitError none`) or any
other type, identified by its message. -/
inductive GoErr where
  | exitError (p : Option ExitError)
  | plain (msg : String)
  deriving DecidableEq, Repr

/-- A value of the interface type `error`; `none` is the nil interface. -/
abbrev GoError := Option GoErr

/-- A non-nil error as `cmd.Wait` produces it: an `*exec.ExitError` pointing
to a real exit record, or an error of another type. -/
inductive WaitErr where
  | exit (exitErr : ExitError)
  | other (msg : String)
  deriving DecidableEq, Repr

/-- The `error` interface value that carries a wait error. -/
def WaitErr.toGoErr : WaitErr → GoErr
  | .exit exitErr => .exitError (some exitErr)
  | .other msg => .plain msg

/-- Result of a Go call that returns `(value, error)` or panics. -/
inductive Outcome (α : Type) where
  | ok (a : α)
  | err (e : GoErr)
  | panic (msg : String)
  deriving Repr

/-! ## Events -/

/-- The lifecycle tags pushed by the spinner. -/
inductive EventKind where
  | EventRunRequested
  | EventRunStarted
  | EventRunSuccess
  | EventRunFail
  | EventRunTimeout
  | EventRunError
  | EventRunWaitError
  deriving DecidableEq, Repr

/-- The third argument of `NewEvent`: nil, a wait status, or the spinner
(kept as its identity). -/
inductive Payload where
  | nil
  | status (status : Nat)
  | spinner (uuid : String)
  deriving DecidableEq, Repr

/-- Modelled from the spec: the `Event` record, whose declaration is not among
the sources.  It carries the producing spinner's identity, the kind tag and the
optional payload; the timestamp is left out. -/
structure Event where
  SpinnerUUID : String
  Name : EventKind
  Payload : Payload
  deriving DecidableEq, Repr

/-- A notifier function `func(ctx, event) error`, seen through its result. -/
abbrev Notifier := Event → GoError

/-! ## Steps and spinners -/

/-- The probe of a step: a secondary command with its own arguments. -/
structure Probe where
  Command : String
  Args : List String
  deriving DecidableEq, Repr

/-- The options a step points to (`step.options`); `Notifier` may be a nil
function value. -/
structure StepOptions where
  Notifier : Option Notifier

/-- Workflow options.  `Notifier` is declared in `workflow.go`; `Timeout` is
the field read by `expandEnvVars` as `s.step.workflow.options.Timeout`. -/
structure WorkflowOptions where
  Notifier : Option Notifier
  Timeout : Duration

/-- The part of a `*Workflow` that a step reaches through `step.workflow`. -/
structure WorkflowRef where
  options : Option WorkflowOptions

/-- A step, with the fields the sources read.  `Timeout` is a
`*time.Duration`, `Probe` a pointer, `options` and `workflow` are the
unexported back-references; `none` is nil. -/
structure Step where
  Name : String
  Command : String
  Args : List String
  Workdir : String
  Timeout : Option Duration
  StopOnFail : Bool
  Probe : Option Probe
  options : Option StepOptions
  workflow : Option WorkflowRef

/-- Which backing array `Spinner.args` shares.  A Go slice is a view of an
array: `args: step.Args` and `step: step` copy slice headers, not elements, so
after construction `s.args` and `s.step.Args` (or `s.step.Probe.Args`) are the
same storage. -/
inductive ArgsAlias where
  | stepArgs
  | probeArgs
  deriving DecidableEq, Repr

/-- The spinner.  `view` is not a Go field: it records which array of
`step` the slice `args` is a view of. -/
structure Spinner where
  UUID : String
  Name : String
  cmd : String
  args : List String
  timeout : Duration
  workdir : String
  step : Step
  view : ArgsAlias

/-- Library functions used by the constructors and by `Run`. -/
structure Lib where
  /-- The call `os.ExpandEnv` under the process environment. -/
  ExpandEnv : String → String
  /-- The call `template.New("t1").Parse(arg)`; a parsed template is kept as
  its `Execute` function on a step. -/
  Parse : String → Except GoErr (Step → Except GoErr String)
  /-- Formatting of a `time.Duration` by the verb `%s`. -/
  durationString : Duration → String

/-! ## Spinner constructors -/

/-- The function `newSpinnerForStep`. -/
def newSpinnerForStep (uuid : String) (step : Step) : Outcome Spinner :=
  match step.options with
  | none => .panic "no options"
  | some _ =>
    .ok { UUID := uuid, Name := step.Name, cmd := step.Command, args := step.Args,
          timeout := 0, workdir := step.Workdir, step := step, view := .stepArgs }

/-- The function `newSpinnerForProbe`.  Reading `step.Probe.Command` through a
nil probe is a nil dereference. -/
def newSpinnerForProbe (uuid : String) (step : Step) : Outcome Spinner :=
  match step.options with
  | none => .panic "no options"
  | some _ =>
    match step.Probe with
    | none => .panic "invalid memory address or nil pointer dereference"
    | some probe =>
      .ok { UUID := uuid, Name := step.Name ++ ".probe", cmd := probe.Command,
            args := probe.Args, timeout := 0, workdir := step.Workdir, step := step,
            view := .probeArgs }

/-- The assignment `s.args[idx] = v`.  It writes the shared backing array, so
the step's view of that array changes with it; an index outside the slice
panics. -/
def Spinner.setArg (s : Spinner) (idx : Nat) (v : String) : Outcome Spinner :=
  if idx < s.args.length then
    match s.view with
    | .stepArgs =>
      .ok { s with args := s.args.set idx v,
                   step := { s.step with Args := s.step.Args.set idx v } }
    | .probeArgs =>
      .ok { s with args := s.args.set idx v,
                   step := { s.step with
                     Probe := s.step.Probe.map
                       (fun p => { p with Args := p.Args.set idx v }) } }
  else .panic "index out of range"

/-- The loop `for idx, item := range s.args { s.args[idx] = os.ExpandEnv(item) }`,
from index `idx` for `n` more iterations. -/
def Spinner.expandArgs (lib : Lib) : Nat → Nat → Spinner → Outcome Spinner
  | 0, _, s => .ok s
  | n + 1, idx, s =>
    match s.args[idx]? with
    | none => .panic "index out of range"
    | some item =>
      match s.setArg idx (lib.ExpandEnv item) with
      | .ok s1 => Spinner.expandArgs lib n (idx + 1) s1
      | .err e => .err e
      | .panic msg => .panic msg

/-- The method `expandEnvVars`. -/
def Spinner.expandEnvVars (lib : Lib) (s : Spinner) : Outcome Spinner :=
  let s1 := { s with cmd := lib.ExpandEnv s.step.Command }
  match Spinner.expandArgs lib s1.args.length 0 s1 with
  | .err e => .err e
  | .panic msg => .panic msg
  | .ok s2 =>
    match s2.step.workflow with
    | none => .panic "no workflow"
    | some workflow =>
      match workflow.options with
      | none => .panic "no workflow option"
      | some options =>
        let s3 : Spinner :=
          match s2.step.Timeout with
          | some t => { s2 with timeout := t }
          | none => { s2 with timeout := options.Timeout }
        if s3.workdir ≠ "" then
          .ok { s3 with workdir := lib.ExpandEnv s3.workdir }
        else .ok s3

/-- The loop of `parseArgs`, `for idx, arg := range s.step.Args`, from index
`idx` for `n` more iterations.  The element `arg` is read from the array when
its iteration starts, and the template runs on the current `s.step`. -/
def Spinner.parseArgsLoop (lib : Lib) : Nat → Nat → Spinner → Outcome Spinner
  | 0, _, s => .ok s
  | n + 1, idx, s =>
    match s.step.Args[idx]? with
    | none => .panic "index out of range"
    | some arg =>
      match lib.Parse arg with
      | .error e => .err e
      | .ok tmpl =>
        match tmpl s.step with
        | .error e => .err e
        | .ok out =>
          match s.setArg idx out with
          | .ok s1 => Spinner.parseArgsLoop lib n (idx + 1) s1
          | .err e => .err e
          | .panic msg => .panic msg

/-- The method `parseArgs`. -/
def Spinner.parseArgs (lib : Lib) (s : Spinner) : Outcome Spinner :=
  Spinner.parseArgsLoop lib s.step.Args.length 0 s

/-- The constructor `NewSpinnerForStep`: `ok sp` is `(sp, nil)`, `err e` is
`(nil, e)`. -/
def NewSpinnerForStep (lib : Lib) (uuid : String) (step : Step) : Outcome Spinner :=
  match newSpinnerForStep uuid step with
  | .err e => .err e
  | .panic msg => .panic msg
  | .ok spinner =>
    match spinner.expandEnvVars lib with
    | .err e => .err e
    | .panic msg => .panic msg
    | .ok spinner => spinner.parseArgs lib

/-- The constructor `NewSpinnerForProbe`. -/
def NewSpinnerForProbe (lib : Lib) (uuid : String) (step : Step) : Outcome Spinner :=
  match newSpinnerForProbe uuid step with
  | .err e => .err e
  | .panic msg => .panic msg
  | .ok spinner =>
    match spinner.expandEnvVars lib with
    | .err e => .err e
    | .panic msg => .panic msg
    | .ok spinner => spinner.parseArgs lib

/-! ## Running a spinner -/

/-- What the notifier has received and what `push` has printed so far. -/
structure Emitted where
  events : List Event
  printed : List GoErr
  deriving DecidableEq, Repr

/-- Modelled from the spec: the constructor `NewEvent(s, kind, payload)`, which
is not among the sources. -/
def NewEvent (s : Spinner) (kind : EventKind) (payload : Payload) : Event :=
  { SpinnerUUID := s.UUID, Name := kind, Payload := payload }

/-- The method `push`: call `s.step.options.Notifier` and print its error. -/
def Spinner.push (s : Spinner) (event : Event) (st : Emitted) : Outcome Emitted :=
  match s.step.options with
  | none => .panic "invalid memory address or nil pointer dereference"
  | some options =>
    match options.Notifier with
    | none => .panic "invalid memory address or nil pointer dereference"
    | some notify =>
      match notify event with
      | none => .ok { st with events := st.events ++ [event] }
      | some err => .ok { events := st.events ++ [event], printed := st.printed ++ [err] }

/-- The outcomes of the operating-system calls of one `Run`: `cmd.Start()`,
`cmd.Wait()`, and whether `cmdCtx.Err()` is `context.DeadlineExceeded` when it
is read after a failed `Wait`. -/
structure ExecWorld where
  start : GoError
  wait : Option WaitErr
  deadlineExceeded : Bool
  deriving DecidableEq, Repr

/-- The message of `fmt.Errorf("Step %s timed out after %s", s.step.Name, s.timeout)`. -/
def timeoutMessage (lib : Lib) (s : Spinner) : String :=
  "Step " ++ s.step.Name ++ " timed out after " ++ lib.durationString s.timeout

/-- The last two statements of `Run`: push `EventRunSuccess`, return nil. -/
def Spinner.runSuccess (s : Spinner) (st : Emitted) : Outcome (GoError × Emitted) :=
  match s.push (NewEvent s .EventRunSuccess .nil) st with
  | .ok st1 => .ok (none, st1)
  | .err e => .err e
  | .panic msg => .panic msg

/-- The method `Spinner.Run`.  The result pairs the returned `error` with what
was emitted.  Building the deadline context, the logger context and the log
writers emits nothing and is left out.  In the branch for a wait error that is not an `*exec.ExitError`
the returned variable is `exitErr`, the nil `*exec.ExitError` left by the
failed type assertion, converted to `error`. -/
def Spinner.Run (lib : Lib) (s : Spinner) (w : ExecWorld) (st : Emitted) :
    Outcome (GoError × Emitted) :=
  match s.push (NewEvent s .EventRunRequested .nil) st with
  | .err e => .err e
  | .panic msg => .panic msg
  | .ok st1 =>
    match w.start with
    | some err =>
      match s.push (NewEvent s .EventRunError .nil) st1 with
      | .err e => .err e
      | .panic msg => .panic msg
      | .ok st2 => .ok (some err, st2)
    | none =>
      match s.push (NewEvent s .EventRunStarted .nil) st1 with
      | .err e => .err e
      | .panic msg => .panic msg
      | .ok st2 =>
        match w.wait with
        | none => s.runSuccess st2
        | some err =>
          if w.deadlineExceeded then
            match s.push (NewEvent s .EventRunTimeout .nil) st2 with
            | .err e => .err e
            | .panic msg => .panic msg
            | .ok st3 => .ok (some (.plain (timeoutMessage lib s)), st3)
          else
            match err with
            | .exit exitErr =>
              match exitErr.Sys with
              | .waitStatus status =>
                match s.push (NewEvent s .EventRunFail (.status status)) st2 with
                | .err e => .err e
                | .panic msg => .panic msg
                | .ok st3 => .ok (some (.exitError (some exitErr)), st3)
              | .other => s.runSuccess st2
            | .other _ =>
              match s.push (NewEvent s .EventRunWaitError (.spinner s.UUID)) st2 with
              | .err e => .err e
              | .panic msg => .panic msg
              | .ok st3 => .ok (some (.exitError none), st3)

/-! ## Workflow: loading -/

/-- A `*logrus.Logger`: the one found in the context, or a fresh `logrus.New()`. -/
inductive Logger where
  | fresh
  | fromContext (id : String)
  deriving DecidableEq, Repr

/-- The workflow of `workflow.go`; `options` and `logger` are pointers. -/
structure Workflow where
  Version : String
  Metadata : List (String × String)
  Steps : List Step
  options : Option WorkflowOptions
  logger : Option Logger

/-- The exported fields of a step, those a YAML document can set. -/
structure StepDoc where
  Name : String
  Command : String
  Args : List String
  Workdir : String
  Timeout : Option Duration
  StopOnFail : Bool
  Probe : Option Probe
  deriving DecidableEq, Repr

/-- The exported fields of a workflow, those a YAML document can set. -/
structure WorkflowDoc where
  Version : String
  Metadata : List (String × String)
  Steps : List StepDoc
  deriving DecidableEq, Repr

/-- The step that decoding allocates: exported fields from the document,
unexported ones at their zero value. -/
def StepDoc.toStep (d : StepDoc) : Step :=
  { Name := d.Name, Command := d.Command, Args := d.Args, Workdir := d.Workdir,
    Timeout := d.Timeout, StopOnFail := d.StopOnFail, Probe := d.Probe,
    options := none, workflow := none }

/-- The workflow that decoding allocates. -/
def WorkflowDoc.toWorkflow (d : WorkflowDoc) : Workflow :=
  { Version := d.Version, Metadata := d.Metadata, Steps := d.Steps.map StepDoc.toStep,
    options := none, logger := none }

/-- The call `yaml.Unmarshal(buff, &workflow)` on a nil `*Workflow`: an error,
or the decoded exported fields, or `none` when the document leaves the pointer
nil (an empty document). -/
structure Yaml where
  Unmarshal : List UInt8 → Except GoErr (Option WorkflowDoc)

/-- The default notifier of the loader: it prints `event.String()` and
returns nil. -/
def stdoutLinePrinter : Notifier := fun _ => none

/-- The function `LoadWorkflowFromBytes`.  `options` is a pointer; `none` is nil. -/
def LoadWorkflowFromBytes (yaml : Yaml) (buff : List UInt8) (options : Option WorkflowOptions) :
    Outcome Workflow :=
  match yaml.Unmarshal buff with
  | .error err => .err err
  | .ok workflow =>
    match options with
    | none => .panic "no options"
    | some options =>
      let options : WorkflowOptions :=
        match options.Notifier with
        | none => { options with Notifier := some stdoutLinePrinter }
        | some _ => options
      match workflow with
      | none => .panic "invalid memory address or nil pointer dereference"
      | some doc => .ok { doc.toWorkflow with options := some options }

/-- The function `LoadWorkflowFromReader`; `read` is the result of
`ioutil.ReadAll(reader)`. -/
def LoadWorkflowFromReader (yaml : Yaml) (read : Except GoErr (List UInt8))
    (options : Option WorkflowOptions) : Outcome Workflow :=
  match read with
  | .error err => .err err
  | .ok buff => LoadWorkflowFromBytes yaml buff options

/-! ## Workflow: running -/

/-- The context, as far as `Workflow.Run` reads it: `ctx.Value(CtxLogger)`. -/
structure Context where
  logger : Option Logger

/-- The options handed to every spinner by `Workflow.Run`. -/
structure SpinnerOptions where
  Notifier : Option Notifier

/-- The two calls `Workflow.Run` makes on spinners.  `NewSpinner(ctx, step,
options)` is not among the sources, and `Run` is an effectful call; their
results are given here for each position in the step list, so that every
assignment of outcomes to the steps is an instance.  `StepName` is
`spinner.Step.Name`. -/
structure SpinnerApi (Sp : Type) where
  NewSpinner : Nat → Step → SpinnerOptions → Except GoErr Sp
  Run : Nat → Sp → GoError
  StepName : Sp → String

/-- What `Workflow.Run` does, in order. -/
inductive WfCall (Sp : Type) where
  | newSpinner (idx : Nat) (step : Step) (options : SpinnerOptions)
  | run (idx : Nat) (spinner : Sp)
  | logError (logger : Logger) (process : String) (err : GoErr)

/-- The loop `for _, step := range w.Steps` of `Workflow.Run`, at position
`idx`, `tr` being what was done so far. -/
def Workflow.runSteps {Sp : Type} (api : SpinnerApi Sp) (options : SpinnerOptions)
    (logger : Logger) : Nat → List Step → List (WfCall Sp) → GoError × List (WfCall Sp)
  | _, [], tr => (none, tr)
  | idx, step :: rest, tr =>
    match api.NewSpinner idx step options with
    | .error err => (some err, tr ++ [.newSpinner idx step options])
    | .ok spinner =>
      match api.Run idx spinner with
      | some err =>
        if step.StopOnFail then
          (some err, tr ++ [.newSpinner idx step options, .run idx spinner])
        else
          Workflow.runSteps api options logger (idx + 1) rest
            (tr ++ [.newSpinner idx step options, .run idx spinner,
                    .logError logger (api.StepName spinner) err])
      | none =>
        Workflow.runSteps api options logger (idx + 1) rest
          (tr ++ [.newSpinner idx step options, .run idx spinner])

/-- The logger `Workflow.Run` stores in `w.logger`. -/
def resolveLogger (ctx : Context) : Logger :=
  match ctx.logger with
  | none => .fresh
  | some logger => logger

/-- The method `Workflow.Run`: the returned `error` and the calls made.
Reading `w.options.Notifier` through nil options is a nil dereference. -/
def Workflow.Run {Sp : Type} (api : SpinnerApi Sp) (ctx : Context) (w : Workflow) :
    Outcome (GoError × List (WfCall Sp)) :=
  let logger := resolveLogger ctx
  match w.options with
  | none => .panic "invalid memory address or nil pointer dereference"
  | some wo =>
    let options : SpinnerOptions := { Notifier := wo.Notifier }
    .ok (Workflow.runSteps api options logger 0 w.Steps [])

/-! ## Notions used to state the properties -/

/-- Template evaluation of the text `t` with the step `d` as data: parse, then
execute. -/
def Lib.eval (lib : Lib) (t : String) (d : Step) : Except GoErr String :=
  match lib.Parse t with
  | .error e => .error e
  | .ok tmpl => tmpl d

/-- The text contains the action delimiter of `text/template`. -/
def hasDirective (t : String) : Prop := "\x7b\x7b".data <:+: t.data

/-- The kinds of a list of events. -/
def kinds (evs : List Event) : List EventKind := evs.map Event.Name

/-- The text `part` occurs inside `msg`. -/
def Mentions (msg part : String) : Prop := part.data <:+: msg.data

/-- The fields of a spinner that writing an argument never changes. -/
def SameFrame (s s1 : Spinner) : Prop :=
  s1.UUID = s.UUID ∧ s1.Name = s.Name ∧ s1.cmd = s.cmd ∧ s1.timeout = s.timeout ∧
  s1.workdir = s.workdir ∧ s1.view = s.view ∧ s1.args.length = s.args.length ∧
  s1.step.Name = s.step.Name ∧ s1.step.Command = s.step.Command ∧
  s1.step.Timeout = s.step.Timeout ∧ s1.step.workflow = s.step.workflow ∧
  s1.step.options = s.step.options

/-- The spinner `s` after its argument array, shared with `s.step.Args`, holds `l`. -/
def withStepArgs (s : Spinner) (l : List String) : Spinner :=
  { s with args := l, step := { s.step with Args := l } }

/-- Left-to-right evaluation of the arguments `rest`, the array holding
`pre ++ rest` when it starts: each argument is evaluated with the step whose
`Args` is the array at that moment, and its output replaces it. -/
def evalArgs (lib : Lib) (step0 : Step) : List String → List String → Except GoErr (List String)
  | pre, [] => .ok pre
  | pre, a :: rest =>
    match lib.eval a { step0 with Args := pre ++ a :: rest } with
    | .error e => .error e
    | .ok out => evalArgs lib step0 (pre ++ [out]) rest

/-- The spinner that `NewSpinnerForStep` returns when the templated arguments
are `l`. -/
def builtStepSpinner (lib : Lib) (uuid : String) (step : Step) (wo : WorkflowOptions)
    (l : List String) : Spinner :=
  { UUID := uuid, Name := step.Name, cmd := lib.ExpandEnv step.Command, args := l,
    timeout := (match step.Timeout with | some t => t | none => wo.Timeout),
    workdir := if step.Workdir ≠ "" then lib.ExpandEnv step.Workdir else step.Workdir,
    step := { step with Args := l }, view := .stepArgs }

/-- The steps handed to `NewSpinner`, with their positions, in call order. -/
def constructed {Sp : Type} : List (WfCall Sp) → List (Nat × Step)
  | [] => []
  | .newSpinner idx step _ :: tr => (idx, step) :: constructed tr
  | _ :: tr => constructed tr

/-- The positions of the spinners that were run, in call order. -/
def ran {Sp : Type} : List (WfCall Sp) → List Nat
  | [] => []
  | .run idx _ :: tr => idx :: ran tr
  | _ :: tr => ran tr

/-- The errors that were logged, with the process name, in call order. -/
def logged {Sp : Type} : List (WfCall Sp) → List (String × GoErr)
  | [] => []
  | .logError _ process err :: tr => (process, err) :: logged tr
  | _ :: tr => logged tr

/-- The error with which the step at position `p.1` halts the workflow: its
construction error, or its run error when `StopOnFail` is set; `none` when the
sequence goes on. -/
def haltError {Sp : Type} (api : SpinnerApi Sp) (options : SpinnerOptions)
    (p : Nat × Step) : GoError :=
  match api.NewSpinner p.1 p.2 options with
  | .error err => some err
  | .ok spinner =>
    match api.Run p.1 spinner with
    | some err => if p.2.StopOnFail then some err else none
    | none => none

/-- The construction of the spinner at position `p.1` succeeds. -/
def constructs {Sp : Type} (api : SpinnerApi Sp) (options : SpinnerOptions)
    (p : Nat × Step) : Bool :=
  match api.NewSpinner p.1 p.2 options with
  | .error _ => false
  | .ok _ => true

/-- The log entry of the step at position `p.1`: its run error, when its
spinner was built and its run failed. -/
def runFailure {Sp : Type} (api : SpinnerApi Sp) (options : SpinnerOptions)
    (p : Nat × Step) : Option (String × GoErr) :=
  match api.NewSpinner p.1 p.2 options with
  | .error _ => none
  | .ok spinner =>
    match api.Run p.1 spinner with
    | some err => some (api.StepName spinner, err)
    | none => none

/-- The steps before the first halting one. -/
def keptSteps {Sp : Type} (api : SpinnerApi Sp) (options : SpinnerOptions)
    (es : List (Nat × Step)) : List (Nat × Step) :=
  es.takeWhile (fun p => (haltError api options p).isNone)

/-- The first halting step, if there is one. -/
def stopStep {Sp : Type} (api : SpinnerApi Sp) (options : SpinnerOptions)
    (es : List (Nat × Step)) : Option (Nat × Step) :=
  (es.dropWhile (fun p => (haltError api options p).isNone)).head?

/-! ## Concrete inputs -/

/-- A small library instance: the environment defines `WHO=world` and
`TMPL={{.Name}}`, a template
is either plain text, one of the actions `{{.Name}}`, `{{index .Args 0}}`,
`{{index .Args 5}}`, or a parse error, and durations print as a number of
nanoseconds. -/
def demoLib : Lib where
  ExpandEnv := fun t =>
    if t = "$WHO" then "world" else if t = "$TMPL" then "\x7b\x7b.Name\x7d\x7d" else t
  Parse := fun t =>
    if t = "\x7b\x7b.Name\x7d\x7d" then .ok (fun step => .ok step.Name)
    else if t = "\x7b\x7bindex .Args 0\x7d\x7d" then
      .ok (fun step =>
        match step.Args[0]? with
        | some v => .ok v
        | none => .error (.plain "template: t1: error calling index: index out of range: 0"))
    else if t = "\x7b\x7bindex .Args 5\x7d\x7d" then
      .ok (fun step =>
        match step.Args[5]? with
        | some v => .ok v
        | none => .error (.plain "template: t1: error calling index: index out of range: 5"))
    else if "\x7b\x7b".data <:+: t.data then .error (.plain "template: t1: parse error")
    else .ok (fun _ => .ok t)
  durationString := fun d => toString d ++ "ns"

/-- A notifier that accepts every event. -/
def quietNotifier : Notifier := fun _ => none

/-- A step `build` with two arguments, a probe with one, and both
back-references set. -/
def demoStep : Step where
  Name := "build"
  Command := "make"
  Args := ["$WHO", "\x7b\x7b.Name\x7d\x7d"]
  Workdir := ""
  Timeout := some 100
  StopOnFail := true
  Probe := some { Command := "curl", Args := ["health"] }
  options := some { Notifier := some quietNotifier }
  workflow := some { options := some { Notifier := some quietNotifier, Timeout := 500 } }

/-- The spinner of `demoStep` as `NewSpinnerForStep` leaves it. -/
def demoSpinner : Spinner where
  UUID := "u1"
  Name := "build"
  cmd := "make"
  args := ["world", "build"]
  timeout := 100
  workdir := ""
  step := { demoStep with Args := ["world", "build"] }
  view := .stepArgs

/-- Nothing emitted yet. -/
def noEvents : Emitted := { events := [], printed := [] }

/-- The step `demoStep` with an explicit timeout of zero. -/
def zeroTimeoutStep : Step := { demoStep with Timeout := some 0 }

/-- A step with one primary argument and a probe with two. -/
def probeStep : Step :=
  { demoStep with Args := ["-j4"], Probe := some { Command := "curl", Args := ["$WHO", "health"] } }

/-- A step whose single argument has no template directive but names an
environment variable whose value is one. -/
def envTemplateStep : Step := { demoStep with Args := ["$TMPL"] }

/-- The step `demoStep` with arguments free of directives after expansion. -/
def plainArgsStep : Step := { demoStep with Args := ["$WHO", "-v"] }

/-- The step `demoStep` with an argument that does not parse as a template. -/
def badTemplateStep : Step := { demoStep with Args := ["-v", "\x7b\x7boops"] }

/-- The step `demoStep` whose second argument is a template reading the first
element of the step's arguments. -/
def argReadingStep : Step :=
  { demoStep with Args := ["\x7b\x7b.Name\x7d\x7d", "\x7b\x7bindex .Args 0\x7d\x7d"] }

/-- The step `demoStep` whose second argument parses as a template and fails
when executed on a step with fewer than six arguments. -/
def execFailStep : Step := { demoStep with Args := ["-v", "\x7b\x7bindex .Args 5\x7d\x7d"] }

/-- A spinner interface on step names: construction fails on an empty command,
the run of the step named `fail` fails. -/
def demoApi : SpinnerApi String where
  NewSpinner := fun _ step _ =>
    if step.Command = "" then .error (.plain "no command") else .ok step.Name
  Run := fun _ name => if name = "fail" then some (.plain "exit status 1") else none
  StepName := fun name => name

/-- The workflow options of the examples. -/
def demoOptions : WorkflowOptions := { Notifier := some quietNotifier, Timeout := 500 }

/-- A workflow of three steps: `ok`, then `fail` with `StopOnFail`, then `after`. -/
def demoWorkflow : Workflow where
  Version := "1"
  Metadata := []
  Steps := [{ demoStep with Name := "ok", StopOnFail := false },
            { demoStep with Name := "fail", StopOnFail := true },
            { demoStep with Name := "after", StopOnFail := false }]
  options := some demoOptions
  logger := none

/-- A context without a logger. -/
def demoContext : Context := { logger := none }

/-- A decoder that yields a one-step document for every non-empty buffer. -/
def demoYaml : Yaml where
  Unmarshal := fun buff =>
    if buff = [] then .ok none
    else .ok (some { Version := "1", Metadata := [],
                     Steps := [{ Name := "list", Command := "ls", Args := ["-la"], Workdir := "",
                                 Timeout := none, StopOnFail := true, Probe := none }] })

/-! ## Run: event sequence and returned error -/

theorem push_ok (s : Spinner) (event : Event) (st : Emitted) (o : StepOptions)
    (notify : Notifier) (ho : s.step.options = some o) (hn : o.Notifier = some notify) :
    ∃ st1, s.push event st = .ok st1 ∧ st1.events = st.events ++ [event] := by
  unfold Spinner.push
  rw [ho]
  simp only [hn]
  cases notify event <;> exact ⟨_, rfl, rfl⟩

/-- C1: for every run of a spinner whose step has options with a notifier, and
whatever `Start`, `Wait` and the deadline report, `Run` returns and the events it
emits are exactly `[RunRequested, RunError]` when `Start` fails and exactly
`[RunRequested, RunStarted, T]` with `T` one of `RunSuccess`, `RunFail`,
`RunTimeout`, `RunWaitError` when `Start` succeeds; so `RunStarted` is emitted
if and only if the child was launched. -/
theorem run_event_sequence (lib : Lib) (s : Spinner) (w : ExecWorld) (st : Emitted)
    (o : StepOptions) (notify : Notifier)
    (ho : s.step.options = some o) (hn : o.Notifier = some notify) :
    ∃ ret st1 evs, s.Run lib w st = .ok (ret, st1) ∧ st1.events = st.events ++ evs ∧
      (∀ ev ∈ evs, ev.SpinnerUUID = s.UUID) ∧
      (w.start ≠ none →
        kinds evs = [EventKind.EventRunRequested, EventKind.EventRunError]) ∧
      (w.start = none → ∃ T,
        (T = EventKind.EventRunSuccess ∨ T = EventKind.EventRunFail ∨
          T = EventKind.EventRunTimeout ∨ T = EventKind.EventRunWaitError) ∧
        kinds evs = [EventKind.EventRunRequested, EventKind.EventRunStarted, T]) ∧
      (EventKind.EventRunStarted ∈ kinds evs ↔ w.start = none) := by
  obtain ⟨st1, h1, e1⟩ := push_ok s (NewEvent s .EventRunRequested .nil) st o notify ho hn
  unfold Spinner.Run
  rw [h1]
  rcases hstart : w.start with _ | err
  · obtain ⟨st2, h2, e2⟩ := push_ok s (NewEvent s .EventRunStarted .nil) st1 o notify ho hn
    simp only [h2]
    rcases hwait : w.wait with _ | werr
    · obtain ⟨st3, h3, e3⟩ := push_ok s (NewEvent s .EventRunSuccess .nil) st2 o notify ho hn
      refine ⟨none, st3, [NewEvent s .EventRunRequested .nil, NewEvent s .EventRunStarted .nil,
        NewEvent s .EventRunSuccess .nil], ?_, ?_, ?_⟩
      · simp only [Spinner.runSuccess, h3]
      · rw [e3, e2, e1]; simp
      · simp [kinds, NewEvent]
    · by_cases hd : w.deadlineExceeded = true
      · obtain ⟨st3, h3, e3⟩ := push_ok s (NewEvent s .EventRunTimeout .nil) st2 o notify ho hn
        refine ⟨some (.plain (timeoutMessage lib s)), st3, [NewEvent s .EventRunRequested .nil,
          NewEvent s .EventRunStarted .nil, NewEvent s .EventRunTimeout .nil], ?_, ?_, ?_⟩
        · simp only [hd, if_true, h3]
        · rw [e3, e2, e1]; simp
        · simp [kinds, NewEvent]
      · rcases werr with ⟨⟨sys⟩⟩ | msg
        · cases sys with
          | waitStatus status =>
            obtain ⟨st3, h3, e3⟩ :=
              push_ok s (NewEvent s .EventRunFail (.status status)) st2 o notify ho hn
            refine ⟨some (.exitError (some ⟨.waitStatus status⟩)), st3,
              [NewEvent s .EventRunRequested .nil, NewEvent s .EventRunStarted .nil,
              NewEvent s .EventRunFail (.status status)], ?_, ?_, ?_⟩
            · simp only [hd, h3]
              rfl
            · rw [e3, e2, e1]; simp
            · simp [kinds, NewEvent]
          | other =>
            obtain ⟨st3, h3, e3⟩ :=
              push_ok s (NewEvent s .EventRunSuccess .nil) st2 o notify ho hn
            refine ⟨none, st3, [NewEvent s .EventRunRequested .nil,
              NewEvent s .EventRunStarted .nil, NewEvent s .EventRunSuccess .nil], ?_, ?_, ?_⟩
            · simp only [hd, Spinner.runSuccess, h3]
              rfl
            · rw [e3, e2, e1]; simp
            · simp [kinds, NewEvent]
        · obtain ⟨st3, h3, e3⟩ :=
            push_ok s (NewEvent s .EventRunWaitError (.spinner s.UUID)) st2 o notify ho hn
          refine ⟨some (.exitError none), st3, [NewEvent s .EventRunRequested .nil,
            NewEvent s .EventRunStarted .nil,
            NewEvent s .EventRunWaitError (.spinner s.UUID)], ?_, ?_, ?_⟩
          · simp only [hd, h3]
            rfl
          · rw [e3, e2, e1]; simp
          · simp [kinds, NewEvent]
  · obtain ⟨st2, h2, e2⟩ := push_ok s (NewEvent s .EventRunError .nil) st1 o notify ho hn
    refine ⟨some err, st2, [NewEvent s .EventRunRequested .nil,
      NewEvent s .EventRunError .nil], ?_, ?_, ?_⟩
    · simp only [h2]
    · rw [e2, e1]; simp
    · simp [kinds, NewEvent]

/-- Witness of C1 on `demoSpinner` with a failing `Start`. -/
theorem run_event_sequence_witness :
    demoSpinner.step.options = some { Notifier := some quietNotifier } ∧
    (some quietNotifier : Option Notifier) = some quietNotifier ∧
    ∃ ret st1 evs,
      demoSpinner.Run demoLib
        { start := some (.plain "exec: not found"), wait := none, deadlineExceeded := false }
        noEvents = .ok (ret, st1) ∧
      st1.events = noEvents.events ++ evs ∧
      (∀ ev ∈ evs, ev.SpinnerUUID = demoSpinner.UUID) ∧
      ((some (GoErr.plain "exec: not found") : GoError) ≠ none →
        kinds evs = [EventKind.EventRunRequested, EventKind.EventRunError]) ∧
      ((some (GoErr.plain "exec: not found") : GoError) = none → ∃ T,
        (T = EventKind.EventRunSuccess ∨ T = EventKind.EventRunFail ∨
          T = EventKind.EventRunTimeout ∨ T = EventKind.EventRunWaitError) ∧
        kinds evs = [EventKind.EventRunRequested, EventKind.EventRunStarted, T]) ∧
      (EventKind.EventRunStarted ∈ kinds evs ↔
        (some (GoErr.plain "exec: not found") : GoError) = none) :=
  ⟨rfl, rfl, run_event_sequence demoLib demoSpinner
    { start := some (.plain "exec: not found"), wait := none, deadlineExceeded := false }
    noEvents { Notifier := some quietNotifier } quietNotifier rfl rfl⟩

/-- An exit error whose `Sys()` value holds no `syscall.WaitStatus` leaves the
exit-error branch without returning, and `Run` ends as on success.  `cmd.Wait`
builds its exit errors from the process state, whose `Sys()` is a wait status,
so it does not produce this input. -/
theorem run_undecodable_exit_reports_success :
    demoSpinner.Run demoLib
      { start := none, wait := some (.exit { Sys := .other }), deadlineExceeded := false }
      noEvents =
    .ok (none,
      { events := [{ SpinnerUUID := "u1", Name := .EventRunRequested, Payload := .nil },
                   { SpinnerUUID := "u1", Name := .EventRunStarted, Payload := .nil },
                   { SpinnerUUID := "u1", Name := .EventRunSuccess, Payload := .nil }],
        printed := [] }) := by
  rfl

/-- The outcomes on which `Run` returns nil: the child started and either
`Wait` reported no error, or the deadline had not elapsed and `Wait` returned an
exit error whose status is not a `syscall.WaitStatus`. -/
theorem run_returns_nil_iff (lib : Lib) (s : Spinner) (w : ExecWorld) (st : Emitted)
    (o : StepOptions) (notify : Notifier)
    (ho : s.step.options = some o) (hn : o.Notifier = some notify) :
    (∃ st1, s.Run lib w st = .ok (none, st1)) ↔
      (w.start = none ∧ (w.wait = none ∨
        (w.deadlineExceeded = false ∧ w.wait = some (.exit { Sys := .other })))) := by
  obtain ⟨st1, h1, -⟩ := push_ok s (NewEvent s .EventRunRequested .nil) st o notify ho hn
  obtain ⟨w_start, w_wait, w_deadline⟩ := w
  unfold Spinner.Run
  rw [h1]
  rcases w_start with _ | err
  · obtain ⟨st2, h2, -⟩ := push_ok s (NewEvent s .EventRunStarted .nil) st1 o notify ho hn
    obtain ⟨st3, h3, -⟩ := push_ok s (NewEvent s .EventRunSuccess .nil) st2 o notify ho hn
    simp only [h2]
    rcases w_wait with _ | werr
    · simp [Spinner.runSuccess, h3]
    · cases w_deadline
      · rcases werr with ⟨⟨sys⟩⟩ | msg
        · cases sys with
          | waitStatus status =>
            obtain ⟨st4, h4, -⟩ :=
              push_ok s (NewEvent s .EventRunFail (.status status)) st2 o notify ho hn
            simp [h4]
          | other => simp [Spinner.runSuccess, h3]
        · obtain ⟨st4, h4, -⟩ :=
            push_ok s (NewEvent s .EventRunWaitError (.spinner s.UUID)) st2 o notify ho hn
          simp [h4]
      · obtain ⟨st4, h4, -⟩ := push_ok s (NewEvent s .EventRunTimeout .nil) st2 o notify ho hn
        simp [h4]
  · obtain ⟨st2, h2, -⟩ := push_ok s (NewEvent s .EventRunError .nil) st1 o notify ho hn
    simp [h2]

/-- C2: for every run in which an exit error returned by `Wait` carries a wait
status (as the exit errors of `cmd.Wait` do), `Run` returns, it emits
`RunSuccess` if and only if the child was started and `Wait` reported no error,
and it returns nil if and only if the same holds; so for a start failure, a
non-zero exit, an elapsed deadline or another wait error `RunSuccess` is not
emitted and the returned error is not nil. -/
theorem run_success_iff (lib : Lib) (s : Spinner) (w : ExecWorld) (st : Emitted)
    (o : StepOptions) (notify : Notifier)
    (ho : s.step.options = some o) (hn : o.Notifier = some notify)
    (hsys : ∀ exitErr, w.wait = some (.exit exitErr) →
      ∃ status, exitErr.Sys = .waitStatus status) :
    ∃ ret st1 evs, s.Run lib w st = .ok (ret, st1) ∧ st1.events = st.events ++ evs ∧
      (EventKind.EventRunSuccess ∈ kinds evs ↔ (w.start = none ∧ w.wait = none)) ∧
      (ret = none ↔ (w.start = none ∧ w.wait = none)) ∧
      (¬ (w.start = none ∧ w.wait = none) →
        EventKind.EventRunSuccess ∉ kinds evs ∧ ret ≠ none) := by
  obtain ⟨st1, h1, e1⟩ := push_ok s (NewEvent s .EventRunRequested .nil) st o notify ho hn
  obtain ⟨w_start, w_wait, w_deadline⟩ := w
  simp only at hsys
  unfold Spinner.Run
  rw [h1]
  rcases w_start with _ | err
  · obtain ⟨st2, h2, e2⟩ := push_ok s (NewEvent s .EventRunStarted .nil) st1 o notify ho hn
    simp only [h2]
    rcases w_wait with _ | werr
    · obtain ⟨st3, h3, e3⟩ := push_ok s (NewEvent s .EventRunSuccess .nil) st2 o notify ho hn
      refine ⟨none, st3, [NewEvent s .EventRunRequested .nil, NewEvent s .EventRunStarted .nil,
        NewEvent s .EventRunSuccess .nil], ?_, ?_, ?_⟩
      · simp only [Spinner.runSuccess, h3]
      · rw [e3, e2, e1]; simp
      · simp [kinds, NewEvent]
    · cases w_deadline
      · rcases werr with exitErr | msg
        · obtain ⟨status, hstatus⟩ := hsys exitErr rfl
          obtain ⟨st3, h3, e3⟩ :=
            push_ok s (NewEvent s .EventRunFail (.status status)) st2 o notify ho hn
          refine ⟨some (.exitError (some exitErr)), st3,
            [NewEvent s .EventRunRequested .nil, NewEvent s .EventRunStarted .nil,
             NewEvent s .EventRunFail (.status status)], ?_, ?_, ?_⟩
          · simp only [hstatus, h3]
            rfl
          · rw [e3, e2, e1]; simp
          · simp [kinds, NewEvent]
        · obtain ⟨st3, h3, e3⟩ :=
            push_ok s (NewEvent s .EventRunWaitError (.spinner s.UUID)) st2 o notify ho hn
          refine ⟨some (.exitError none), st3, [NewEvent s .EventRunRequested .nil,
            NewEvent s .EventRunStarted .nil,
            NewEvent s .EventRunWaitError (.spinner s.UUID)], ?_, ?_, ?_⟩
          · simp only [h3]
            rfl
          · rw [e3, e2, e1]; simp
          · simp [kinds, NewEvent]
      · obtain ⟨st3, h3, e3⟩ := push_ok s (NewEvent s .EventRunTimeout .nil) st2 o notify ho hn
        refine ⟨some (.plain (timeoutMessage lib s)), st3, [NewEvent s .EventRunRequested .nil,
          NewEvent s .EventRunStarted .nil, NewEvent s .EventRunTimeout .nil], ?_, ?_, ?_⟩
        · simp only [if_true, h3]
        · rw [e3, e2, e1]; simp
        · simp [kinds, NewEvent]
  · obtain ⟨st2, h2, e2⟩ := push_ok s (NewEvent s .EventRunError .nil) st1 o notify ho hn
    refine ⟨some err, st2, [NewEvent s .EventRunRequested .nil,
      NewEvent s .EventRunError .nil], ?_, ?_, ?_⟩
    · simp only [h2]
    · rw [e2, e1]; simp
    · simp [kinds, NewEvent]

/-- Witness of C2: `demoSpinner` whose child exits with wait status 256. -/
theorem run_success_iff_witness :
    demoSpinner.step.options = some { Notifier := some quietNotifier } ∧
    (some quietNotifier : Option Notifier) = some quietNotifier ∧
    (∀ exitErr, (some (WaitErr.exit { Sys := .waitStatus 256 }) : Option WaitErr) =
        some (.exit exitErr) → ∃ status, exitErr.Sys = .waitStatus status) ∧
    ∃ ret st1 evs,
      demoSpinner.Run demoLib
        { start := none, wait := some (.exit { Sys := .waitStatus 256 }),
          deadlineExceeded := false } noEvents = .ok (ret, st1) ∧
      st1.events = noEvents.events ++ evs ∧
      (EventKind.EventRunSuccess ∈ kinds evs ↔
        ((none : GoError) = none ∧
          (some (WaitErr.exit { Sys := .waitStatus 256 }) : Option WaitErr) = none)) ∧
      (ret = none ↔
        ((none : GoError) = none ∧
          (some (WaitErr.exit { Sys := .waitStatus 256 }) : Option WaitErr) = none)) ∧
      (¬ ((none : GoError) = none ∧
          (some (WaitErr.exit { Sys := .waitStatus 256 }) : Option WaitErr) = none) →
        EventKind.EventRunSuccess ∉ kinds evs ∧ ret ≠ none) :=
  ⟨rfl, rfl,
    fun exitErr h => ⟨256, by
      simp only [Option.some.injEq, WaitErr.exit.injEq] at h
      rw [← h]⟩,
    run_success_iff demoLib demoSpinner
      { start := none, wait := some (.exit { Sys := .waitStatus 256 }),
        deadlineExceeded := false }
      noEvents { Notifier := some quietNotifier } quietNotifier rfl rfl
      (fun exitErr h => ⟨256, by
        simp only [Option.some.injEq, WaitErr.exit.injEq] at h
        rw [← h]⟩)⟩

/-- C3: when the child starts, the deadline has not elapsed and `Wait` returns
an exit error whose `Sys()` is the wait status `status`, `Run` emits
`RunRequested`, `RunStarted`, then `RunFail` with `status` as payload, and
returns that exit error. -/
theorem run_exit_error_emits_fail (lib : Lib) (s : Spinner) (w : ExecWorld) (st : Emitted)
    (o : StepOptions) (notify : Notifier) (exitErr : ExitError) (status : Nat)
    (ho : s.step.options = some o) (hn : o.Notifier = some notify)
    (hstart : w.start = none) (hdeadline : w.deadlineExceeded = false)
    (hwait : w.wait = some (.exit exitErr)) (hsys : exitErr.Sys = .waitStatus status) :
    ∃ st1, s.Run lib w st = .ok (some (WaitErr.exit exitErr).toGoErr, st1) ∧
      (WaitErr.exit exitErr).toGoErr = GoErr.exitError (some exitErr) ∧
      st1.events = st.events ++
        [NewEvent s .EventRunRequested .nil, NewEvent s .EventRunStarted .nil,
         { SpinnerUUID := s.UUID, Name := .EventRunFail, Payload := .status status }] := by
  obtain ⟨st1, h1, e1⟩ := push_ok s (NewEvent s .EventRunRequested .nil) st o notify ho hn
  obtain ⟨st2, h2, e2⟩ := push_ok s (NewEvent s .EventRunStarted .nil) st1 o notify ho hn
  obtain ⟨st3, h3, e3⟩ :=
    push_ok s (NewEvent s .EventRunFail (.status status)) st2 o notify ho hn
  refine ⟨st3, ?_, rfl, ?_⟩
  · unfold Spinner.Run
    rw [h1]
    simp only [hstart, h2, hwait, hdeadline, hsys, h3]
    rfl
  · rw [e3, e2, e1]
    simp [NewEvent]

/-- Witness of C3: `demoSpinner`, a child that exits with wait status 256. -/
theorem run_exit_error_emits_fail_witness :
    demoSpinner.step.options = some { Notifier := some quietNotifier } ∧
    (some quietNotifier : Option Notifier) = some quietNotifier ∧
    (none : GoError) = none ∧ false = false ∧
    (some (WaitErr.exit { Sys := .waitStatus 256 }) : Option WaitErr) =
      some (.exit { Sys := .waitStatus 256 }) ∧
    ({ Sys := .waitStatus 256 } : ExitError).Sys = .waitStatus 256 ∧
    ∃ st1, demoSpinner.Run demoLib
        { start := none, wait := some (.exit { Sys := .waitStatus 256 }),
          deadlineExceeded := false } noEvents =
        .ok (some (WaitErr.exit { Sys := .waitStatus 256 }).toGoErr, st1) ∧
      (WaitErr.exit { Sys := .waitStatus 256 }).toGoErr =
        GoErr.exitError (some { Sys := .waitStatus 256 }) ∧
      st1.events = noEvents.events ++
        [NewEvent demoSpinner .EventRunRequested .nil,
         NewEvent demoSpinner .EventRunStarted .nil,
         { SpinnerUUID := demoSpinner.UUID, Name := .EventRunFail, Payload := .status 256 }] :=
  ⟨rfl, rfl, rfl, rfl, rfl, rfl,
    run_exit_error_emits_fail demoLib demoSpinner
      { start := none, wait := some (.exit { Sys := .waitStatus 256 }),
        deadlineExceeded := false }
      noEvents { Notifier := some quietNotifier } quietNotifier { Sys := .waitStatus 256 } 256
      rfl rfl rfl rfl rfl rfl⟩

/-- C4: when the child starts and `Wait` returns any error while the deadline
context reports `DeadlineExceeded`, `Run` emits `RunRequested`, `RunStarted`,
then `RunTimeout` (and neither `RunFail` nor `RunWaitError`), and returns an
error whose message is `Step <name> timed out after <timeout>`, which mentions
the step's name and the spinner's timeout. -/
theorem run_deadline_emits_timeout (lib : Lib) (s : Spinner) (w : ExecWorld) (st : Emitted)
    (o : StepOptions) (notify : Notifier) (werr : WaitErr)
    (ho : s.step.options = some o) (hn : o.Notifier = some notify)
    (hstart : w.start = none) (hwait : w.wait = some werr)
    (hdeadline : w.deadlineExceeded = true) :
    ∃ st1 msg, s.Run lib w st = .ok (some (.plain msg), st1) ∧
      st1.events = st.events ++
        [NewEvent s .EventRunRequested .nil, NewEvent s .EventRunStarted .nil,
         NewEvent s .EventRunTimeout .nil] ∧
      msg = "Step " ++ s.step.Name ++ " timed out after " ++ lib.durationString s.timeout ∧
      Mentions msg s.step.Name ∧ Mentions msg (lib.durationString s.timeout) := by
  obtain ⟨st1, h1, e1⟩ := push_ok s (NewEvent s .EventRunRequested .nil) st o notify ho hn
  obtain ⟨st2, h2, e2⟩ := push_ok s (NewEvent s .EventRunStarted .nil) st1 o notify ho hn
  obtain ⟨st3, h3, e3⟩ := push_ok s (NewEvent s .EventRunTimeout .nil) st2 o notify ho hn
  refine ⟨st3, timeoutMessage lib s, ?_, ?_, rfl, ?_, ?_⟩
  · unfold Spinner.Run
    rw [h1]
    simp only [hstart, h2, hwait, hdeadline, if_true, h3]
  · rw [e3, e2, e1]
    simp
  · refine ⟨"Step ".data, (" timed out after " ++ lib.durationString s.timeout).data, ?_⟩
    simp [timeoutMessage, String.data_append]
  · refine ⟨("Step " ++ s.step.Name ++ " timed out after ").data, [], ?_⟩
    simp [timeoutMessage, String.data_append]

/-- Witness of C4: `demoSpinner` whose child is killed at the deadline. -/
theorem run_deadline_emits_timeout_witness :
    demoSpinner.step.options = some { Notifier := some quietNotifier } ∧
    (some quietNotifier : Option Notifier) = some quietNotifier ∧
    (none : GoError) = none ∧
    (some (WaitErr.exit { Sys := .waitStatus 9 }) : Option WaitErr) =
      some (.exit { Sys := .waitStatus 9 }) ∧
    true = true ∧
    ∃ st1 msg, demoSpinner.Run demoLib
        { start := none, wait := some (.exit { Sys := .waitStatus 9 }),
          deadlineExceeded := true } noEvents = .ok (some (.plain msg), st1) ∧
      st1.events = noEvents.events ++
        [NewEvent demoSpinner .EventRunRequested .nil,
         NewEvent demoSpinner .EventRunStarted .nil,
         NewEvent demoSpinner .EventRunTimeout .nil] ∧
      msg = "Step " ++ demoSpinner.step.Name ++ " timed out after " ++
        demoLib.durationString demoSpinner.timeout ∧
      Mentions msg demoSpinner.step.Name ∧
      Mentions msg (demoLib.durationString demoSpinner.timeout) :=
  ⟨rfl, rfl, rfl, rfl, rfl,
    run_deadline_emits_timeout demoLib demoSpinner
      { start := none, wait := some (.exit { Sys := .waitStatus 9 }),
        deadlineExceeded := true }
      noEvents { Notifier := some quietNotifier } quietNotifier
      (.exit { Sys := .waitStatus 9 }) rfl rfl rfl rfl rfl⟩

/-- C5, evaluated where the code departs from it: the child starts, the
deadline has not elapsed and `Wait` returns an error that is not an exit
error.  `Run` emits `RunWaitError` and returns `exitErr`, the nil
`*exec.ExitError` of the failed type assertion, which is not the error that
`Wait` returned. -/
theorem run_wait_error_returns_nil_exit_error :
    demoSpinner.Run demoLib
      { start := none, wait := some (.other "read |0: file already closed"),
        deadlineExceeded := false }
      noEvents =
    .ok (some (GoErr.exitError none),
      { events := [{ SpinnerUUID := "u1", Name := .EventRunRequested, Payload := .nil },
                   { SpinnerUUID := "u1", Name := .EventRunStarted, Payload := .nil },
                   { SpinnerUUID := "u1", Name := .EventRunWaitError,
                     Payload := .spinner "u1" }],
        printed := [] }) ∧
    GoErr.exitError none ≠ (WaitErr.other "read |0: file already closed").toGoErr := by
  refine ⟨rfl, ?_⟩
  simp [WaitErr.toGoErr]

/-! ## Constructors: timeout resolution -/

theorem SameFrame.refl (s : Spinner) : SameFrame s s :=
  ⟨rfl, rfl, rfl, rfl, rfl, rfl, rfl, rfl, rfl, rfl, rfl, rfl⟩

theorem SameFrame.trans {a b c : Spinner} (h1 : SameFrame a b) (h2 : SameFrame b c) :
    SameFrame a c := by
  obtain ⟨a1, a2, a3, a4, a5, a6, a7, a8, a9, a10, a11, a12⟩ := h1
  obtain ⟨b1, b2, b3, b4, b5, b6, b7, b8, b9, b10, b11, b12⟩ := h2
  exact ⟨b1.trans a1, b2.trans a2, b3.trans a3, b4.trans a4, b5.trans a5, b6.trans a6,
    b7.trans a7, b8.trans a8, b9.trans a9, b10.trans a10, b11.trans a11, b12.trans a12⟩

theorem setArg_frame (s s1 : Spinner) (idx : Nat) (v : String)
    (h : s.setArg idx v = .ok s1) : SameFrame s s1 := by
  unfold Spinner.setArg at h
  split at h
  · split at h
    · cases h
      exact ⟨rfl, rfl, rfl, rfl, rfl, rfl, by simp, rfl, rfl, rfl, rfl, rfl⟩
    · cases h
      exact ⟨rfl, rfl, rfl, rfl, rfl, rfl, by simp, rfl, rfl, rfl, rfl, rfl⟩
  · cases h

theorem expandArgs_frame (lib : Lib) (n : Nat) :
    ∀ (idx : Nat) (s s1 : Spinner), Spinner.expandArgs lib n idx s = .ok s1 → SameFrame s s1 := by
  induction n with
  | zero =>
    intro idx s s1 h
    simp only [Spinner.expandArgs] at h
    cases h
    exact SameFrame.refl s
  | succ n ih =>
    intro idx s s1 h
    simp only [Spinner.expandArgs] at h
    split at h
    · cases h
    · split at h
      · rename_i s2 h2
        exact (setArg_frame _ _ _ _ h2).trans (ih _ _ _ h)
      · cases h
      · cases h

theorem parseArgsLoop_frame (lib : Lib) (n : Nat) :
    ∀ (idx : Nat) (s s1 : Spinner), Spinner.parseArgsLoop lib n idx s = .ok s1 →
      SameFrame s s1 := by
  induction n with
  | zero =>
    intro idx s s1 h
    simp only [Spinner.parseArgsLoop] at h
    cases h
    exact SameFrame.refl s
  | succ n ih =>
    intro idx s s1 h
    simp only [Spinner.parseArgsLoop] at h
    split at h
    · cases h
    · split at h
      · cases h
      · split at h
        · cases h
        · split at h
          · rename_i s2 h2
            exact (setArg_frame _ _ _ _ h2).trans (ih _ _ _ h)
          · cases h
          · cases h

/-- After `expandEnvVars` the timeout is the step's own when it has one and
the workflow default otherwise. -/
theorem expandEnvVars_timeout (lib : Lib) (s s1 : Spinner) (wf : WorkflowRef)
    (wo : WorkflowOptions) (hwf : s.step.workflow = some wf) (hwo : wf.options = some wo)
    (h : s.expandEnvVars lib = .ok s1) :
    s1.timeout = (match s.step.Timeout with | some t => t | none => wo.Timeout) ∧
    s1.step.Timeout = s.step.Timeout := by
  unfold Spinner.expandEnvVars at h
  simp only at h
  split at h
  · cases h
  · cases h
  · rename_i s2 h2
    have hf := expandArgs_frame lib _ _ _ _ h2
    obtain ⟨-, -, -, -, -, -, -, -, -, hT, hW, -⟩ := hf
    simp only at hT hW
    rw [hW, hwf] at h
    simp only [hwo] at h
    rw [hT] at h
    cases hst : s.step.Timeout with
    | none =>
      rw [hst] at h
      simp only at h
      split at h <;> cases h <;> exact ⟨rfl, by simpa [hst] using hT⟩
    | some t =>
      rw [hst] at h
      simp only at h
      split at h <;> cases h <;> exact ⟨rfl, by simpa [hst] using hT⟩

/-- C7 as stated fails: a step whose back-references are populated and whose
explicit timeout is zero yields a spinner whose timeout is zero, not positive. -/
theorem spinner_timeout_zero_accepted :
    zeroTimeoutStep.workflow =
      some { options := some { Notifier := some quietNotifier, Timeout := 500 } } ∧
    NewSpinnerForStep demoLib "u1" zeroTimeoutStep =
      .ok { UUID := "u1", Name := "build", cmd := "make", args := ["world", "build"],
            timeout := 0, workdir := "",
            step := { zeroTimeoutStep with Args := ["world", "build"] },
            view := .stepArgs } ∧
    ¬ ((0 : Duration) < 0) := by
  refine ⟨rfl, rfl, ?_⟩
  decide

/-- C7, amended: for every step whose workflow back-reference and workflow
options are populated, a spinner returned by `NewSpinnerForStep` or by
`NewSpinnerForProbe` has the step's explicit timeout when the step sets one and
the workflow's default timeout otherwise; it is positive exactly when that
value is. -/
theorem spinner_timeout_resolution (lib : Lib) (uuid : String) (step : Step) (sp : Spinner)
    (wf : WorkflowRef) (wo : WorkflowOptions)
    (hwf : step.workflow = some wf) (hwo : wf.options = some wo)
    (h : NewSpinnerForStep lib uuid step = .ok sp ∨ NewSpinnerForProbe lib uuid step = .ok sp) :
    sp.timeout = (match step.Timeout with | some t => t | none => wo.Timeout) ∧
    (0 < sp.timeout ↔ 0 < (match step.Timeout with | some t => t | none => wo.Timeout)) := by
  have key : sp.timeout = (match step.Timeout with | some t => t | none => wo.Timeout) := by
    rcases h with h | h
    · unfold NewSpinnerForStep at h
      split at h
      · cases h
      · cases h
      · rename_i s0 h0
        split at h
        · cases h
        · cases h
        · rename_i s1 h1
          have hstep : s0.step = step := by
            unfold newSpinnerForStep at h0
            split at h0
            · cases h0
            · cases h0; rfl
          have ht := expandEnvVars_timeout lib s0 s1 wf wo (by rw [hstep]; exact hwf) hwo h1
          have hf := parseArgsLoop_frame lib _ _ _ _ h
          obtain ⟨-, -, -, hT, -⟩ := hf
          rw [hT, ht.1, hstep]
    · unfold NewSpinnerForProbe at h
      split at h
      · cases h
      · cases h
      · rename_i s0 h0
        split at h
        · cases h
        · cases h
        · rename_i s1 h1
          have hstep : s0.step = step := by
            unfold newSpinnerForProbe at h0
            split at h0
            · cases h0
            · split at h0
              · cases h0
              · cases h0; rfl
          have ht := expandEnvVars_timeout lib s0 s1 wf wo (by rw [hstep]; exact hwf) hwo h1
          have hf := parseArgsLoop_frame lib _ _ _ _ h
          obtain ⟨-, -, -, hT, -⟩ := hf
          rw [hT, ht.1, hstep]
  exact ⟨key, by rw [key]⟩

/-- Witness of C7 amended, on `demoStep` (explicit timeout 100). -/
theorem spinner_timeout_resolution_witness :
    demoStep.workflow =
      some { options := some { Notifier := some quietNotifier, Timeout := 500 } } ∧
    (some { Notifier := some quietNotifier, Timeout := 500 } : Option WorkflowOptions) =
      some { Notifier := some quietNotifier, Timeout := 500 } ∧
    (NewSpinnerForStep demoLib "u1" demoStep = .ok demoSpinner ∨
      NewSpinnerForProbe demoLib "u1" demoStep = .ok demoSpinner) ∧
    demoSpinner.timeout = (match demoStep.Timeout with | some t => t | none => 500) ∧
    (0 < demoSpinner.timeout ↔
      0 < (match demoStep.Timeout with | some t => t | none => (500 : Duration))) :=
  ⟨rfl, rfl, Or.inl rfl,
    spinner_timeout_resolution demoLib "u1" demoStep demoSpinner
      { options := some { Notifier := some quietNotifier, Timeout := 500 } }
      { Notifier := some quietNotifier, Timeout := 500 } rfl rfl (Or.inl rfl)⟩

/-! ## Constructors: the probe variant -/

/-- C8, evaluated where the code departs from it.  On `probeStep` the
constructor returns a spinner named `build.probe` whose command is the expansion
of the primary command `make`, not of the probe command `curl`, and whose first
argument is the templated primary argument `-j4`, not the probe argument.  On
`demoStep`, which has two primary arguments and one probe argument,
`parseArgs` writes `s.args[1]` and the constructor panics. -/
theorem probe_spinner_uses_primary_command_and_args :
    NewSpinnerForProbe demoLib "u2" probeStep =
      .ok { UUID := "u2", Name := "build.probe", cmd := "make", args := ["-j4", "health"],
            timeout := 100, workdir := "",
            step := { probeStep with
              Probe := some { Command := "curl", Args := ["-j4", "health"] } },
            view := .probeArgs } ∧
    demoLib.ExpandEnv "curl" = "curl" ∧
    [demoLib.ExpandEnv "$WHO", demoLib.ExpandEnv "health"] = ["world", "health"] ∧
    NewSpinnerForProbe demoLib "u2" demoStep = .panic "index out of range" := by
  refine ⟨rfl, rfl, rfl, rfl⟩

/-! ## Constructors: arguments of the step variant -/

theorem withStepArgs_self (s : Spinner) (h : s.step.Args = s.args) :
    withStepArgs s s.args = s := by
  obtain ⟨uuid, name, cmd, args, timeout, workdir, step, view⟩ := s
  obtain ⟨n, c, a, w, t, sf, p, o, wf⟩ := step
  simp only at h
  subst h
  rfl

theorem step_eq_with_args (step : Step) (l : List String) (h : step.Args = l) :
    step = { step with Args := l } := by
  subst h
  rfl

theorem setArg_step (s : Spinner) (idx : Nat) (v : String) (hv : s.view = .stepArgs)
    (hs : s.step.Args = s.args) (hi : idx < s.args.length) :
    s.setArg idx v = .ok (withStepArgs s (s.args.set idx v)) := by
  unfold Spinner.setArg withStepArgs
  simp only [if_pos hi, hv, hs]

theorem set_append_cons (pre rest : List String) (a v : String) :
    (pre ++ a :: rest).set pre.length v = pre ++ v :: rest := by
  induction pre with
  | nil => rfl
  | cons x pre ih => simp [ih]

theorem getElem?_append_cons (pre rest : List String) (a : String) :
    (pre ++ a :: rest)[pre.length]? = some a := by
  induction pre with
  | nil => simp
  | cons x pre ih => simpa using ih

theorem expandArgs_step (lib : Lib) :
    ∀ (rest pre : List String) (s : Spinner), s.view = .stepArgs → s.step.Args = s.args →
      s.args = pre ++ rest →
      Spinner.expandArgs lib rest.length pre.length s =
        .ok (withStepArgs s (pre ++ rest.map lib.ExpandEnv)) := by
  intro rest
  induction rest with
  | nil =>
    intro pre s _ hs ha
    simp only [List.length_nil, Spinner.expandArgs, List.map_nil]
    rw [← ha, withStepArgs_self s hs]
  | cons a rest ih =>
    intro pre s hv hs ha
    simp only [List.length_cons, Spinner.expandArgs]
    rw [ha, getElem?_append_cons]
    simp only
    rw [setArg_step s _ _ hv hs (by rw [ha]; simp)]
    simp only
    have := ih (pre ++ [lib.ExpandEnv a]) (withStepArgs s (s.args.set pre.length (lib.ExpandEnv a)))
      hv rfl (by simp [withStepArgs, ha, set_append_cons])
    simp only [List.length_append, List.length_singleton] at this
    rw [this]
    simp [withStepArgs]

theorem evalArgs_step_irrelevant (lib : Lib) (step0 : Step) (x : List String) :
    ∀ (rest pre : List String),
      evalArgs lib { step0 with Args := x } pre rest = evalArgs lib step0 pre rest := by
  intro rest
  induction rest with
  | nil => intro pre; rfl
  | cons a rest ih =>
    intro pre
    simp only [evalArgs]
    split
    · rfl
    · exact ih _

theorem parseArgsLoop_step (lib : Lib) :
    ∀ (rest pre : List String) (s : Spinner), s.view = .stepArgs → s.step.Args = s.args →
      s.args = pre ++ rest →
      Spinner.parseArgsLoop lib rest.length pre.length s =
        (match evalArgs lib s.step pre rest with
         | .ok l => .ok (withStepArgs s l)
         | .error e => .err e) := by
  intro rest
  induction rest with
  | nil =>
    intro pre s _ hs ha
    simp only [List.length_nil, Spinner.parseArgsLoop, evalArgs]
    have hp : pre = s.args := by simpa using ha.symm
    rw [hp, withStepArgs_self s hs]
  | cons a rest ih =>
    intro pre s hv hs ha
    have hstep : s.step = { s.step with Args := pre ++ a :: rest } :=
      step_eq_with_args s.step _ (hs.trans ha)
    simp only [List.length_cons, Spinner.parseArgsLoop, evalArgs, Lib.eval]
    rw [hs, ha, getElem?_append_cons]
    simp only
    cases hparse : lib.Parse a with
    | error e => rfl
    | ok tmpl =>
      simp only
      rw [← hstep]
      cases hexec : tmpl s.step with
      | error e => rfl
      | ok out =>
        simp only
        rw [setArg_step s _ _ hv hs (by rw [ha]; simp)]
        simp only
        have := ih (pre ++ [out]) (withStepArgs s (s.args.set pre.length out))
          hv rfl (by simp [withStepArgs, ha, set_append_cons])
        simp only [List.length_append, List.length_singleton] at this
        rw [this]
        have h2 : (withStepArgs s (s.args.set pre.length out)).step =
            { s.step with Args := s.args.set pre.length out } := rfl
        rw [h2, evalArgs_step_irrelevant]
        cases evalArgs lib s.step (pre ++ [out]) rest <;> rfl

theorem expandEnvVars_step (lib : Lib) (uuid : String) (step : Step)
    (wf : WorkflowRef) (wo : WorkflowOptions)
    (hwf : step.workflow = some wf) (hwo : wf.options = some wo) :
    Spinner.expandEnvVars lib
      { UUID := uuid, Name := step.Name, cmd := step.Command, args := step.Args,
        timeout := 0, workdir := step.Workdir, step := step, view := .stepArgs } =
      .ok (builtStepSpinner lib uuid step wo (step.Args.map lib.ExpandEnv)) := by
  have h := expandArgs_step lib step.Args []
    { UUID := uuid, Name := step.Name, cmd := lib.ExpandEnv step.Command, args := step.Args,
      timeout := 0, workdir := step.Workdir, step := step, view := .stepArgs } rfl rfl rfl
  simp only [List.length_nil, List.nil_append] at h
  unfold Spinner.expandEnvVars
  simp only [h, withStepArgs, hwf, hwo, builtStepSpinner]
  cases step.Timeout <;> simp only <;> split <;> simp_all

theorem NewSpinnerForStep_eq (lib : Lib) (uuid : String) (step : Step) (o : StepOptions)
    (wf : WorkflowRef) (wo : WorkflowOptions) (ho : step.options = some o)
    (hwf : step.workflow = some wf) (hwo : wf.options = some wo) :
    NewSpinnerForStep lib uuid step =
      (match evalArgs lib step [] (step.Args.map lib.ExpandEnv) with
       | .ok l => .ok (builtStepSpinner lib uuid step wo l)
       | .error e => .err e) := by
  unfold NewSpinnerForStep newSpinnerForStep
  simp only [ho, expandEnvVars_step lib uuid step wf wo hwf hwo]
  have h := parseArgsLoop_step lib (step.Args.map lib.ExpandEnv) []
    (builtStepSpinner lib uuid step wo (step.Args.map lib.ExpandEnv)) rfl rfl rfl
  simp only [List.length_nil] at h
  unfold Spinner.parseArgs
  have h2 : (builtStepSpinner lib uuid step wo (step.Args.map lib.ExpandEnv)).step.Args =
      step.Args.map lib.ExpandEnv := rfl
  rw [h2, h]
  have h3 : (builtStepSpinner lib uuid step wo (step.Args.map lib.ExpandEnv)).step =
      { step with Args := step.Args.map lib.ExpandEnv } := rfl
  rw [h3, evalArgs_step_irrelevant]
  cases evalArgs lib step [] (step.Args.map lib.ExpandEnv) <;> rfl

theorem NewSpinnerForStep_ok_populated (lib : Lib) (uuid : String) (step : Step) (sp : Spinner)
    (h : NewSpinnerForStep lib uuid step = .ok sp) :
    ∃ o wf wo, step.options = some o ∧ step.workflow = some wf ∧ wf.options = some wo := by
  cases ho : step.options with
  | none => simp [NewSpinnerForStep, newSpinnerForStep, ho] at h
  | some o =>
    cases hwf : step.workflow with
    | none =>
      exfalso
      unfold NewSpinnerForStep newSpinnerForStep at h
      simp only [ho] at h
      split at h
      · cases h
      · cases h
      · rename_i s1 h1
        unfold Spinner.expandEnvVars at h1
        simp only at h1
        split at h1
        · cases h1
        · cases h1
        · rename_i s2 h2
          have hf := expandArgs_frame lib _ _ _ _ h2
          obtain ⟨-, -, -, -, -, -, -, -, -, -, hW, -⟩ := hf
          simp only at hW
          rw [hW, hwf] at h1
          cases h1
    | some wf =>
      cases hwo : wf.options with
      | none =>
        exfalso
        unfold NewSpinnerForStep newSpinnerForStep at h
        simp only [ho] at h
        split at h
        · cases h
        · cases h
        · rename_i s1 h1
          unfold Spinner.expandEnvVars at h1
          simp only at h1
          split at h1
          · cases h1
          · cases h1
          · rename_i s2 h2
            have hf := expandArgs_frame lib _ _ _ _ h2
            obtain ⟨-, -, -, -, -, -, -, -, -, -, hW, -⟩ := hf
            simp only at hW
            rw [hW, hwf] at h1
            simp only [hwo] at h1
            cases h1
      | some wo => exact ⟨o, wf, wo, rfl, rfl, hwo⟩

theorem evalArgs_ok (lib : Lib) (step0 : Step) :
    ∀ (rest pre l : List String), evalArgs lib step0 pre rest = .ok l →
      l.length = pre.length + rest.length ∧ l.take pre.length = pre ∧
      ∀ (j : Nat) (hj : j < rest.length), ∃ out,
        lib.eval (rest.get ⟨j, hj⟩)
          { step0 with Args := l.take (pre.length + j) ++ rest.drop j } = .ok out ∧
        l[pre.length + j]? = some out := by
  intro rest
  induction rest with
  | nil =>
    intro pre l h
    simp only [evalArgs, Except.ok.injEq] at h
    subst h
    refine ⟨by simp, by simp, ?_⟩
    intro j hj
    simp at hj
  | cons a rest ih =>
    intro pre l h
    simp only [evalArgs] at h
    split at h
    · cases h
    · rename_i out hout
      obtain ⟨hlen, htake, hrest⟩ := ih (pre ++ [out]) l h
      simp only [List.length_append, List.length_singleton] at hlen htake hrest
      have htake0 : l.take pre.length = pre := by
        have := congrArg (List.take pre.length) htake
        simpa [List.take_take] using this
      have hget0 : l[pre.length]? = some out := by
        have h1 : (l.take (pre.length + 1))[pre.length]? = l[pre.length]? := by
          rw [List.getElem?_take]
          simp
        rw [← h1, htake]
        simp
      refine ⟨by simp [hlen]; omega, htake0, ?_⟩
      intro j hj
      cases j with
      | zero =>
        refine ⟨out, ?_, by simpa using hget0⟩
        simpa [htake0] using hout
      | succ j =>
        obtain ⟨out1, h1, h2⟩ := hrest j (by simpa using hj)
        refine ⟨out1, ?_, ?_⟩
        · have e : pre.length + (j + 1) = pre.length + 1 + j := by omega
          simpa [e] using h1
        · have e : pre.length + (j + 1) = pre.length + 1 + j := by omega
          rw [e]
          exact h2

theorem evalArgs_verbatim (lib : Lib) (step0 : Step) :
    ∀ (rest pre : List String), (∀ a ∈ rest, ∀ d, lib.eval a d = .ok a) →
      evalArgs lib step0 pre rest = .ok (pre ++ rest) := by
  intro rest
  induction rest with
  | nil => intro pre _; simp [evalArgs]
  | cons a rest ih =>
    intro pre h
    simp only [evalArgs]
    rw [h a (List.mem_cons_self a rest)]
    simp only
    rw [ih (pre ++ [a]) (fun b hb => h b (List.mem_cons_of_mem a hb))]
    simp

theorem evalArgs_fails (lib : Lib) (step0 : Step) :
    ∀ (rest pre : List String), (∃ a ∈ rest, ∀ d, ∃ e, lib.eval a d = .error e) →
      ∃ e, evalArgs lib step0 pre rest = .error e := by
  intro rest
  induction rest with
  | nil =>
    intro pre h
    obtain ⟨a, ha, -⟩ := h
    cases ha
  | cons b rest ih =>
    intro pre h
    simp only [evalArgs]
    split
    · rename_i e he
      exact ⟨e, rfl⟩
    · rename_i out hout
      obtain ⟨a, ha, hfail⟩ := h
      rcases List.mem_cons.mp ha with hab | har
      · subst hab
        obtain ⟨e, he⟩ := hfail { step0 with Args := pre ++ a :: rest }
        rw [he] at hout
        cases hout
      · exact ih _ ⟨a, har, hfail⟩

theorem evalArgs_after (lib : Lib) (step0 : Step) :
    ∀ (outs xs pre : List String),
      (∀ (j : Nat) (x out : String), xs[j]? = some x → outs[j]? = some out →
        lib.eval x { step0 with Args := pre ++ (outs.take j ++ xs.drop j) } = .ok out) →
      outs.length ≤ xs.length →
      evalArgs lib step0 pre xs = evalArgs lib step0 (pre ++ outs) (xs.drop outs.length) := by
  intro outs
  induction outs with
  | nil => intro xs pre _ _; simp
  | cons o outs ih =>
    intro xs pre h hlen
    cases xs with
    | nil => simp at hlen
    | cons x xs =>
      have h0 := h 0 x o (by simp) (by simp)
      simp only [List.take_zero, List.drop_zero, List.nil_append] at h0
      simp only [evalArgs, h0, List.length_cons, List.drop_succ_cons]
      rw [ih xs (pre ++ [o]) ?_ (by simpa using hlen)]
      · simp
      · intro j x1 o1 hx ho
        have := h (j + 1) x1 o1 (by simpa using hx) (by simpa using ho)
        simpa using this

theorem evalArgs_error_at (lib : Lib) (step0 : Step) (outs xs : List String) (a : String)
    (e : GoErr)
    (hprev : ∀ (j : Nat) (x out : String), xs[j]? = some x → outs[j]? = some out →
      lib.eval x { step0 with Args := outs.take j ++ xs.drop j } = .ok out)
    (ha : xs[outs.length]? = some a)
    (hfail : lib.eval a { step0 with Args := outs ++ xs.drop outs.length } = .error e) :
    evalArgs lib step0 [] xs = .error e := by
  have hlt : outs.length < xs.length := by
    rcases Nat.lt_or_ge outs.length xs.length with h | h
    · exact h
    · rw [List.getElem?_eq_none h] at ha
      cases ha
  have hdrop : xs.drop outs.length = a :: xs.drop (outs.length + 1) := by
    rw [List.drop_eq_getElem_cons hlt]
    congr 1
    rw [List.getElem?_eq_getElem hlt] at ha
    exact Option.some.inj ha
  rw [evalArgs_after lib step0 outs xs [] (by simpa using hprev) (Nat.le_of_lt hlt)]
  rw [hdrop] at hfail ⊢
  simp only [List.nil_append, evalArgs, hfail]

/-- C10 as stated fails in two places.  No argument of `envTemplateStep`
contains a template directive, yet the spinner's arguments are `["build"]`
while the environment-expanded arguments are the directive text itself, because
expansion runs before templating.  And the second argument of
`argReadingStep` comes out as `build`, the first argument as already templated,
while its template evaluation with the step that was passed in as data is the
first argument's text `{{.Name}}`: the data is the step as its argument array
stands at that iteration. -/
theorem step_args_not_as_claimed :
    (∀ a ∈ envTemplateStep.Args, ¬ hasDirective a) ∧
    NewSpinnerForStep demoLib "u3" envTemplateStep =
      .ok { UUID := "u3", Name := "build", cmd := "make", args := ["build"],
            timeout := 100, workdir := "",
            step := { envTemplateStep with Args := ["build"] }, view := .stepArgs } ∧
    envTemplateStep.Args.map demoLib.ExpandEnv = ["\x7b\x7b.Name\x7d\x7d"] ∧
    ["build"] ≠ envTemplateStep.Args.map demoLib.ExpandEnv ∧
    NewSpinnerForStep demoLib "u4" argReadingStep =
      .ok { UUID := "u4", Name := "build", cmd := "make", args := ["build", "build"],
            timeout := 100, workdir := "",
            step := { argReadingStep with Args := ["build", "build"] }, view := .stepArgs } ∧
    demoLib.eval (demoLib.ExpandEnv "\x7b\x7bindex .Args 0\x7d\x7d") argReadingStep =
      .ok "\x7b\x7b.Name\x7d\x7d" ∧
    ("build" : String) ≠ "\x7b\x7b.Name\x7d\x7d" := by
  refine ⟨?_, rfl, rfl, ?_, rfl, rfl, ?_⟩
  · intro a ha
    have : a = "$TMPL" := by simpa [envTemplateStep] using ha
    subst this
    unfold hasDirective
    decide
  · decide
  · decide

/-- C10, amended: whenever `NewSpinnerForStep` returns a spinner, its argument
list has the length of `step.Args` and its `i`-th element is the template
evaluation of the environment expansion of `step.Args[i]`, the data being the
step as its argument array stands at that iteration (earlier elements already
templated, later ones expanded); when no environment-expanded argument contains
a template directive (and the template engine copies directive-free text
verbatim) the spinner's arguments are the environment-expanded arguments; and
when the arguments before some position evaluate to `outs` and the evaluation
of the argument at that position fails with `e`, at parsing or at execution on
the data of that iteration, the constructor returns no spinner, and returns the
error `e` once the back-references are populated, which is when evaluation is
reached; an argument whose evaluation fails on every data makes construction
fail wherever it stands. -/
theorem step_spinner_args (lib : Lib) (uuid : String) (step : Step) :
    (∀ sp, NewSpinnerForStep lib uuid step = .ok sp →
      sp.args.length = step.Args.length ∧
      (∀ (i : Nat) (hi : i < step.Args.length), ∃ out,
        lib.eval (lib.ExpandEnv (step.Args.get ⟨i, hi⟩))
          { step with Args := sp.args.take i ++ (step.Args.drop i).map lib.ExpandEnv } =
            .ok out ∧
        sp.args[i]? = some out) ∧
      ((∀ t, ¬ hasDirective t → ∀ d, lib.eval t d = .ok t) →
        (∀ a ∈ step.Args, ¬ hasDirective (lib.ExpandEnv a)) →
        sp.args = step.Args.map lib.ExpandEnv)) ∧
    (∀ (outs : List String) (a : String) (e : GoErr),
      (∀ (j : Nat) (x out : String), step.Args[j]? = some x → outs[j]? = some out →
        lib.eval (lib.ExpandEnv x)
          { step with Args := outs.take j ++ (step.Args.drop j).map lib.ExpandEnv } =
            .ok out) →
      step.Args[outs.length]? = some a →
      lib.eval (lib.ExpandEnv a)
        { step with Args := outs ++ (step.Args.drop outs.length).map lib.ExpandEnv } =
          .error e →
      (∀ sp, NewSpinnerForStep lib uuid step ≠ .ok sp) ∧
      (∀ o wf wo, step.options = some o → step.workflow = some wf → wf.options = some wo →
        NewSpinnerForStep lib uuid step = .err e)) ∧
    ((∃ a ∈ step.Args, ∀ d, ∃ e, lib.eval (lib.ExpandEnv a) d = .error e) →
      (∀ sp, NewSpinnerForStep lib uuid step ≠ .ok sp) ∧
      (∀ o wf wo, step.options = some o → step.workflow = some wf → wf.options = some wo →
        ∃ e, NewSpinnerForStep lib uuid step = .err e)) := by
  have main : ∀ sp, NewSpinnerForStep lib uuid step = .ok sp →
      sp.args.length = step.Args.length ∧
      (∀ (i : Nat) (hi : i < step.Args.length), ∃ out,
        lib.eval (lib.ExpandEnv (step.Args.get ⟨i, hi⟩))
          { step with Args := sp.args.take i ++ (step.Args.drop i).map lib.ExpandEnv } =
            .ok out ∧
        sp.args[i]? = some out) ∧
      ((∀ t, ¬ hasDirective t → ∀ d, lib.eval t d = .ok t) →
        (∀ a ∈ step.Args, ¬ hasDirective (lib.ExpandEnv a)) →
        sp.args = step.Args.map lib.ExpandEnv) := by
    intro sp h
    obtain ⟨o, wf, wo, ho, hwf, hwo⟩ := NewSpinnerForStep_ok_populated lib uuid step sp h
    rw [NewSpinnerForStep_eq lib uuid step o wf wo ho hwf hwo] at h
    cases hev : evalArgs lib step [] (step.Args.map lib.ExpandEnv) with
    | error e => rw [hev] at h; cases h
    | ok l =>
      rw [hev] at h
      simp only [Outcome.ok.injEq] at h
      subst h
      obtain ⟨hlen, -, hidx⟩ := evalArgs_ok lib step _ _ _ hev
      refine ⟨by simpa [builtStepSpinner] using hlen, ?_, ?_⟩
      · intro i hi
        obtain ⟨out, h1, h2⟩ := hidx i (by simpa using hi)
        refine ⟨out, ?_, by simpa [builtStepSpinner] using h2⟩
        simpa [builtStepSpinner, List.map_drop] using h1
      · intro hlib hplain
        have := evalArgs_verbatim lib step (step.Args.map lib.ExpandEnv) [] (by
          intro a ha d
          obtain ⟨b, hb, rfl⟩ := List.mem_map.mp ha
          exact hlib _ (hplain b hb) d)
        rw [this] at hev
        simp only [List.nil_append, Except.ok.injEq] at hev
        simp [builtStepSpinner, ← hev]
  have atIteration : ∀ (outs : List String) (a : String) (e : GoErr),
      (∀ (j : Nat) (x out : String), step.Args[j]? = some x → outs[j]? = some out →
        lib.eval (lib.ExpandEnv x)
          { step with Args := outs.take j ++ (step.Args.drop j).map lib.ExpandEnv } =
            .ok out) →
      step.Args[outs.length]? = some a →
      lib.eval (lib.ExpandEnv a)
        { step with Args := outs ++ (step.Args.drop outs.length).map lib.ExpandEnv } =
          .error e →
      ∀ o wf wo, step.options = some o → step.workflow = some wf → wf.options = some wo →
        NewSpinnerForStep lib uuid step = .err e := by
    intro outs a e hprev ha hfail o wf wo ho hwf hwo
    rw [NewSpinnerForStep_eq lib uuid step o wf wo ho hwf hwo]
    have hev := evalArgs_error_at lib step outs (step.Args.map lib.ExpandEnv)
      (lib.ExpandEnv a) e
      (by
        intro j x out hx hout
        rw [List.getElem?_map] at hx
        cases hx0 : step.Args[j]? with
        | none => rw [hx0] at hx; cases hx
        | some x0 =>
          rw [hx0] at hx
          simp only [Option.map_some', Option.some.injEq] at hx
          subst hx
          simpa [List.map_drop] using hprev j x0 out hx0 hout)
      (by rw [List.getElem?_map, ha]; rfl)
      (by simpa [List.map_drop] using hfail)
    rw [hev]
  refine ⟨main, ?_, ?_⟩
  · intro outs a e hprev ha hfail
    refine ⟨?_, atIteration outs a e hprev ha hfail⟩
    intro sp h
    obtain ⟨o, wf, wo, ho, hwf, hwo⟩ := NewSpinnerForStep_ok_populated lib uuid step sp h
    rw [atIteration outs a e hprev ha hfail o wf wo ho hwf hwo] at h
    cases h
  intro hfail
  obtain ⟨a, ha, hbad⟩ := hfail
  constructor
  · intro sp h
    obtain ⟨-, hidx, -⟩ := main sp h
    obtain ⟨n, hn⟩ := List.get_of_mem ha
    obtain ⟨out, hout, -⟩ := hidx n.1 n.2
    obtain ⟨e, he⟩ := hbad
      { step with Args := sp.args.take n.1 ++ (step.Args.drop n.1).map lib.ExpandEnv }
    rw [hn, he] at hout
    cases hout
  · intro o wf wo ho hwf hwo
    rw [NewSpinnerForStep_eq lib uuid step o wf wo ho hwf hwo]
    obtain ⟨e, he⟩ := evalArgs_fails lib step (step.Args.map lib.ExpandEnv) []
      ⟨lib.ExpandEnv a, List.mem_map.mpr ⟨a, ha, rfl⟩, hbad⟩
    exact ⟨e, by rw [he]⟩

theorem demoLib_verbatim :
    ∀ t, ¬ hasDirective t → ∀ d, demoLib.eval t d = .ok t := by
  intro t ht d
  have h1 : t ≠ "\x7b\x7b.Name\x7d\x7d" := by
    intro h
    subst h
    exact ht (by unfold hasDirective; decide)
  have h2 : t ≠ "\x7b\x7bindex .Args 0\x7d\x7d" := by
    intro h
    subst h
    exact ht (by unfold hasDirective; decide)
  have h3 : t ≠ "\x7b\x7bindex .Args 5\x7d\x7d" := by
    intro h
    subst h
    exact ht (by unfold hasDirective; decide)
  unfold hasDirective at ht
  simp only [Lib.eval, demoLib, if_neg h1, if_neg h2, if_neg h3, if_neg ht]

/-- Witness of C10 amended: `demoStep` builds `demoSpinner`, whose two
arguments are the templated expansions of the step's two arguments; the
arguments of `plainArgsStep` come out as their expansions; on `execFailStep`
the second argument parses and its execution fails on the data of its
iteration, though not on every data, and the constructor returns that error;
`badTemplateStep` yields an error. -/
theorem step_spinner_args_witness :
    NewSpinnerForStep demoLib "u1" demoStep = .ok demoSpinner ∧
    demoSpinner.args.length = demoStep.Args.length ∧
    (∀ (i : Nat) (hi : i < demoStep.Args.length), ∃ out,
      demoLib.eval (demoLib.ExpandEnv (demoStep.Args.get ⟨i, hi⟩))
        { demoStep with
          Args := demoSpinner.args.take i ++ (demoStep.Args.drop i).map demoLib.ExpandEnv } =
          .ok out ∧
      demoSpinner.args[i]? = some out) ∧
    (withStepArgs { demoSpinner with step := plainArgsStep } ["world", "-v"]).args =
      plainArgsStep.Args.map demoLib.ExpandEnv ∧
    demoLib.eval "\x7b\x7bindex .Args 5\x7d\x7d"
      { demoStep with Args := ["a", "b", "c", "d", "e", "f"] } = .ok "f" ∧
    NewSpinnerForStep demoLib "u1" execFailStep =
      .err (.plain "template: t1: error calling index: index out of range: 5") ∧
    (∃ e, NewSpinnerForStep demoLib "u1" badTemplateStep = .err e) :=
  ⟨rfl, ((step_spinner_args demoLib "u1" demoStep).1 demoSpinner rfl).1,
    ((step_spinner_args demoLib "u1" demoStep).1 demoSpinner rfl).2.1,
    ((step_spinner_args demoLib "u1" plainArgsStep).1
      (withStepArgs { demoSpinner with step := plainArgsStep } ["world", "-v"]) rfl).2.2
      demoLib_verbatim (by
        intro a ha
        have : a = "$WHO" ∨ a = "-v" := by simpa [plainArgsStep] using ha
        rcases this with h | h <;> subst h <;> unfold hasDirective <;> decide),
    rfl,
    ((step_spinner_args demoLib "u1" execFailStep).2.1 ["-v"]
      "\x7b\x7bindex .Args 5\x7d\x7d"
      (.plain "template: t1: error calling index: index out of range: 5")
      (by
        intro j x out hx hout
        cases j with
        | zero =>
          simp only [execFailStep, List.getElem?_cons_zero, Option.some.injEq] at hx hout
          subst hx
          subst hout
          rfl
        | succ j => simp at hout)
      rfl rfl).2
      { Notifier := some quietNotifier }
      { options := some { Notifier := some quietNotifier, Timeout := 500 } }
      { Notifier := some quietNotifier, Timeout := 500 } rfl rfl rfl,
    ((step_spinner_args demoLib "u1" badTemplateStep).2.2
      ⟨"\x7b\x7boops", by simp [badTemplateStep], fun _ => ⟨_, rfl⟩⟩).2
      { Notifier := some quietNotifier }
      { options := some { Notifier := some quietNotifier, Timeout := 500 } }
      { Notifier := some quietNotifier, Timeout := 500 } rfl rfl rfl⟩

/-! ## Workflow: sequencing -/

theorem constructed_append {Sp : Type} (a b : List (WfCall Sp)) :
    constructed (a ++ b) = constructed a ++ constructed b := by
  induction a with
  | nil => rfl
  | cons c a ih => cases c <;> simp [constructed, ih]

theorem ran_append {Sp : Type} (a b : List (WfCall Sp)) :
    ran (a ++ b) = ran a ++ ran b := by
  induction a with
  | nil => rfl
  | cons c a ih => cases c <;> simp [ran, ih]

theorem logged_append {Sp : Type} (a b : List (WfCall Sp)) :
    logged (a ++ b) = logged a ++ logged b := by
  induction a with
  | nil => rfl
  | cons c a ih => cases c <;> simp [logged, ih]

theorem runSteps_spec {Sp : Type} (api : SpinnerApi Sp) (options : SpinnerOptions)
    (logger : Logger) :
    ∀ (steps : List Step) (idx : Nat) (tr : List (WfCall Sp)),
      (Workflow.runSteps api options logger idx steps tr).1 =
        (match stopStep api options (steps.enumFrom idx) with
         | none => none
         | some p => haltError api options p) ∧
      constructed (Workflow.runSteps api options logger idx steps tr).2 =
        constructed tr ++ (keptSteps api options (steps.enumFrom idx) ++
          (stopStep api options (steps.enumFrom idx)).toList) ∧
      ran (Workflow.runSteps api options logger idx steps tr).2 =
        ran tr ++ (keptSteps api options (steps.enumFrom idx) ++
          (stopStep api options (steps.enumFrom idx)).toList.filter
            (constructs api options)).map Prod.fst ∧
      logged (Workflow.runSteps api options logger idx steps tr).2 =
        logged tr ++ (keptSteps api options (steps.enumFrom idx)).filterMap
          (runFailure api options) := by
  intro steps
  induction steps with
  | nil =>
    intro idx tr
    simp [Workflow.runSteps, stopStep, keptSteps]
  | cons step rest ih =>
    intro idx tr
    simp only [Workflow.runSteps, List.enumFrom_cons]
    cases hnew : api.NewSpinner idx step options with
    | error err =>
      have hh : haltError api options (idx, step) = some err := by
        simp [haltError, hnew]
      have hc : constructs api options (idx, step) = false := by
        simp [constructs, hnew]
      simp [stopStep, keptSteps, hh, hc, constructed_append, ran_append, logged_append,
        constructed, ran, logged]
    | ok spinner =>
      have hc : constructs api options (idx, step) = true := by
        simp [constructs, hnew]
      cases hrun : api.Run idx spinner with
      | none =>
        have hh : haltError api options (idx, step) = none := by
          simp [haltError, hnew, hrun]
        have hf : runFailure api options (idx, step) = none := by
          simp [runFailure, hnew, hrun]
        obtain ⟨i1, i2, i3, i4⟩ := ih (idx + 1)
          (tr ++ [.newSpinner idx step options, .run idx spinner])
        simp only [stopStep, keptSteps, hrun] at i1 i2 i3 i4 ⊢
        simp [i1, i2, i3, i4, hh, hf, constructed_append, ran_append, logged_append,
          constructed, ran, logged]
      | some err =>
        by_cases hstop : step.StopOnFail = true
        · have hh : haltError api options (idx, step) = some err := by
            simp [haltError, hnew, hrun, hstop]
          simp [hrun, hstop, stopStep, keptSteps, hh, hc, constructed_append, ran_append,
            logged_append, constructed, ran, logged]
        · have hh : haltError api options (idx, step) = none := by
            simp [haltError, hnew, hrun, hstop]
          have hf : runFailure api options (idx, step) =
              some (api.StepName spinner, err) := by
            simp [runFailure, hnew, hrun]
          obtain ⟨i1, i2, i3, i4⟩ := ih (idx + 1)
            (tr ++ [.newSpinner idx step options, .run idx spinner,
              .logError logger (api.StepName spinner) err])
          simp only [stopStep, keptSteps, hrun] at i1 i2 i3 i4 ⊢
          simp [hstop, i1, i2, i3, i4, hh, hf, constructed_append, ran_append,
            logged_append, constructed, ran, logged]

theorem head_dropWhile_false {α : Type} (f : α → Bool) :
    ∀ (l : List α) (p : α), (l.dropWhile f).head? = some p → f p = false := by
  intro l
  induction l with
  | nil => intro p h; simp at h
  | cons a l ih =>
    intro p h
    by_cases ha : f a = true
    · rw [List.dropWhile_cons_of_pos ha] at h
      exact ih p h
    · rw [List.dropWhile_cons_of_neg ha] at h
      simp only [List.head?_cons, Option.some.injEq] at h
      subst h
      simpa using ha

theorem kept_stop_prefix {α : Type} (f : α → Bool) (l : List α) :
    l.takeWhile f ++ (l.dropWhile f).head?.toList <+: l := by
  have h := List.takeWhile_append_dropWhile f l
  cases hd : l.dropWhile f with
  | nil =>
    rw [hd] at h
    simp only [List.head?_nil, Option.toList_none, List.append_nil] at h ⊢
    rw [h]
  | cons a rest =>
    rw [hd] at h
    simp only [List.head?_cons, Option.toList_some]
    exact ⟨rest, by simpa using h⟩

/-- C6: for every workflow that has options and every assignment of outcomes
to its steps, `Workflow.Run` returns; the steps it constructs are, in
declaration order, the steps before the first halting one followed by that
step, a step halting when its construction fails or when its run fails with
`StopOnFail` set; every constructed spinner is run, a run failure of a step that
does not halt is logged, the result is the halting step's error, which is not
nil, and when no step halts every step is constructed and run once, in order,
and the result is nil. -/
theorem workflow_run_sequencing {Sp : Type} (api : SpinnerApi Sp) (ctx : Context)
    (w : Workflow) (wo : WorkflowOptions) (hopts : w.options = some wo) :
    ∃ ret tr, Workflow.Run api ctx w = .ok (ret, tr) ∧
      constructed tr = keptSteps api { Notifier := wo.Notifier } w.Steps.enum ++
        (stopStep api { Notifier := wo.Notifier } w.Steps.enum).toList ∧
      constructed tr <+: w.Steps.enum ∧
      ran tr = (keptSteps api { Notifier := wo.Notifier } w.Steps.enum ++
        (stopStep api { Notifier := wo.Notifier } w.Steps.enum).toList.filter
          (constructs api { Notifier := wo.Notifier })).map Prod.fst ∧
      logged tr = (keptSteps api { Notifier := wo.Notifier } w.Steps.enum).filterMap
        (runFailure api { Notifier := wo.Notifier }) ∧
      ret = (match stopStep api { Notifier := wo.Notifier } w.Steps.enum with
        | none => none
        | some p => haltError api { Notifier := wo.Notifier } p) ∧
      (∀ p, stopStep api { Notifier := wo.Notifier } w.Steps.enum = some p → ret ≠ none) ∧
      ((∀ p ∈ w.Steps.enum, haltError api { Notifier := wo.Notifier } p = none) →
        ret = none ∧ constructed tr = w.Steps.enum ∧ ran tr = List.range w.Steps.length) := by
  obtain ⟨h1, h2, h3, h4⟩ :=
    runSteps_spec api { Notifier := wo.Notifier } (resolveLogger ctx) w.Steps 0 []
  refine ⟨(Workflow.runSteps api { Notifier := wo.Notifier } (resolveLogger ctx) 0 w.Steps []).1,
    (Workflow.runSteps api { Notifier := wo.Notifier } (resolveLogger ctx) 0 w.Steps []).2,
    ?_, ?_, ?_, ?_, ?_, ?_, ?_, ?_⟩
  · unfold Workflow.Run
    simp only [hopts]
  · simpa [constructed, List.enum] using h2
  · have : constructed
        (Workflow.runSteps api { Notifier := wo.Notifier } (resolveLogger ctx) 0 w.Steps []).2 =
        keptSteps api { Notifier := wo.Notifier } w.Steps.enum ++
          (stopStep api { Notifier := wo.Notifier } w.Steps.enum).toList := by
      simpa [constructed, List.enum] using h2
    rw [this]
    exact kept_stop_prefix _ _
  · simpa [ran, List.enum] using h3
  · simpa [logged, List.enum] using h4
  · simpa [List.enum] using h1
  · intro p hp
    have hp2 : stopStep api { Notifier := wo.Notifier } (List.enumFrom 0 w.Steps) = some p := hp
    rw [h1, hp2]
    have := head_dropWhile_false _ _ p hp
    intro hnone
    simp only at hnone
    rw [hnone] at this
    simp at this
  · intro hall
    have hdrop : w.Steps.enum.dropWhile
        (fun p => (haltError api { Notifier := wo.Notifier } p).isNone) = [] := by
      rw [List.dropWhile_eq_nil_iff]
      intro p hp
      simp [hall p hp]
    have htake : w.Steps.enum.takeWhile
        (fun p => (haltError api { Notifier := wo.Notifier } p).isNone) = w.Steps.enum := by
      rw [List.takeWhile_eq_self_iff]
      intro p hp
      simp [hall p hp]
    have hstop : stopStep api { Notifier := wo.Notifier } (List.enumFrom 0 w.Steps) = none := by
      have : stopStep api { Notifier := wo.Notifier } w.Steps.enum = none := by
        simp [stopStep, hdrop]
      exact this
    have hkept : keptSteps api { Notifier := wo.Notifier } (List.enumFrom 0 w.Steps) =
        w.Steps.enum := htake
    refine ⟨?_, ?_, ?_⟩
    · rw [h1, hstop]
    · rw [h2, hstop, hkept]
      simp [constructed]
    · rw [h3, hstop, hkept]
      simp [ran, List.enum_map_fst]

/-- Witness of C6 on `demoWorkflow`. -/
theorem workflow_run_sequencing_witness :
    demoWorkflow.options = some demoOptions ∧
    ∃ ret tr, Workflow.Run demoApi demoContext demoWorkflow = .ok (ret, tr) ∧
      constructed tr = keptSteps demoApi { Notifier := demoOptions.Notifier }
          demoWorkflow.Steps.enum ++
        (stopStep demoApi { Notifier := demoOptions.Notifier } demoWorkflow.Steps.enum).toList ∧
      constructed tr <+: demoWorkflow.Steps.enum ∧
      ran tr = (keptSteps demoApi { Notifier := demoOptions.Notifier }
          demoWorkflow.Steps.enum ++
        (stopStep demoApi { Notifier := demoOptions.Notifier }
          demoWorkflow.Steps.enum).toList.filter
          (constructs demoApi { Notifier := demoOptions.Notifier })).map Prod.fst ∧
      logged tr = (keptSteps demoApi { Notifier := demoOptions.Notifier }
          demoWorkflow.Steps.enum).filterMap
        (runFailure demoApi { Notifier := demoOptions.Notifier }) ∧
      ret = (match stopStep demoApi { Notifier := demoOptions.Notifier }
          demoWorkflow.Steps.enum with
        | none => none
        | some p => haltError demoApi { Notifier := demoOptions.Notifier } p) ∧
      (∀ p, stopStep demoApi { Notifier := demoOptions.Notifier } demoWorkflow.Steps.enum =
        some p → ret ≠ none) ∧
      ((∀ p ∈ demoWorkflow.Steps.enum,
          haltError demoApi { Notifier := demoOptions.Notifier } p = none) →
        ret = none ∧ constructed tr = demoWorkflow.Steps.enum ∧
          ran tr = List.range demoWorkflow.Steps.length) :=
  ⟨rfl, workflow_run_sequencing demoApi demoContext demoWorkflow demoOptions rfl⟩

/-- On `demoWorkflow` the run stops at the second step with its error: two
spinners are constructed and run, nothing is logged. -/
theorem workflow_run_stops_at_failing_step :
    (Workflow.runSteps demoApi { Notifier := demoOptions.Notifier } .fresh 0
      demoWorkflow.Steps []).1 = some (.plain "exit status 1") ∧
    ran (Workflow.runSteps demoApi { Notifier := demoOptions.Notifier } .fresh 0
      demoWorkflow.Steps []).2 = [0, 1] ∧
    (constructed (Workflow.runSteps demoApi { Notifier := demoOptions.Notifier } .fresh 0
      demoWorkflow.Steps []).2).map Prod.fst = [0, 1] := by
  refine ⟨rfl, rfl, rfl⟩

/-! ## Workflow: loading and the back-references -/

/-- A loaded workflow has options with a notifier, and none of its steps has a
back-reference: both constructors panic on each of them. -/
theorem load_leaves_steps_unlinked (yaml : Yaml) (buff : List UInt8)
    (options : Option WorkflowOptions) (w : Workflow)
    (h : LoadWorkflowFromBytes yaml buff options = .ok w) :
    (∃ wo notify, w.options = some wo ∧ wo.Notifier = some notify) ∧
    ∀ step ∈ w.Steps, step.options = none ∧ step.workflow = none ∧
      ∀ lib uuid, NewSpinnerForStep lib uuid step = .panic "no options" ∧
        NewSpinnerForProbe lib uuid step = .panic "no options" := by
  unfold LoadWorkflowFromBytes at h
  cases hy : yaml.Unmarshal buff with
  | error err => rw [hy] at h; cases h
  | ok workflow =>
    rw [hy] at h
    cases options with
    | none => cases h
    | some opts =>
      cases workflow with
      | none => cases h
      | some doc =>
        simp only [Outcome.ok.injEq] at h
        subst h
        constructor
        · cases hn : opts.Notifier with
          | none => exact ⟨_, stdoutLinePrinter, rfl, rfl⟩
          | some notify => exact ⟨_, notify, rfl, hn⟩
        · intro step hstep
          simp only [WorkflowDoc.toWorkflow, List.mem_map] at hstep
          obtain ⟨d, -, rfl⟩ := hstep
          refine ⟨rfl, rfl, ?_⟩
          intro lib uuid
          exact ⟨rfl, rfl⟩

/-- C9, evaluated where the code departs from it: loading a one-step document
with options that have no notifier succeeds and installs the stdout printer,
but the step of the returned workflow has neither `options` nor `workflow`
set, and `NewSpinnerForStep` on it panics with `no options`. -/
theorem loaded_step_has_no_back_reference :
    LoadWorkflowFromBytes demoYaml [115] (some { Notifier := none, Timeout := 1000 }) =
      .ok { Version := "1", Metadata := [],
            Steps := [{ Name := "list", Command := "ls", Args := ["-la"], Workdir := "",
                        Timeout := none, StopOnFail := true, Probe := none,
                        options := none, workflow := none }],
            options := some { Notifier := some stdoutLinePrinter, Timeout := 1000 },
            logger := none } ∧
    LoadWorkflowFromReader demoYaml (.ok [115]) (some { Notifier := none, Timeout := 1000 }) =
      LoadWorkflowFromBytes demoYaml [115] (some { Notifier := none, Timeout := 1000 }) ∧
    NewSpinnerForStep demoLib "u1"
      { Name := "list", Command := "ls", Args := ["-la"], Workdir := "",
        Timeout := none, StopOnFail := true, Probe := none,
        options := none, workflow := none } = .panic "no options" := by
  refine ⟨rfl, rfl, rfl⟩

end Trackman
